import Mathlib

/-!
Verification development for the `skilltoxlsx` converter (`src/app.py`).

The program manipulates JSON-derived Python values (dicts, lists, strings,
numbers, `None`) and writes them into spreadsheet cell grids.  We embed those
values as the inductive `PyVal`, Python attribute errors / type errors as
`Except String`, and a worksheet as a function from (column, row) to the cell
value.  Numbers are modelled as integers (the spec only speaks of integral
ranks and the code never does arithmetic on them); float-specific behaviour is
outside the model.  Alignment/merge formatting is not modelled: only cell
values are, which is what the claims about cell windows and sheet content
quantify over.
-/

set_option maxRecDepth 4000

/-! A Python value as produced by `json.loads` (plus `None` defaults used by
the code).  Dicts are association lists with string keys, which is what JSON
objects decode to.  `PyList`/`PyDict` are mutual copies of the list type so
that all recursion over values is structural and kernel-reducible. -/
mutual
inductive PyVal where
  | none : PyVal
  | bool : Bool → PyVal
  | int : Int → PyVal
  | str : String → PyVal
  | list : PyList → PyVal
  | dict : PyDict → PyVal

inductive PyList where
  | nil : PyList
  | cons : PyVal → PyList → PyList

inductive PyDict where
  | nil : PyDict
  | cons : String → PyVal → PyDict → PyDict
end

def PyList.ofList : List PyVal → PyList
  | [] => .nil
  | x :: xs => .cons x (PyList.ofList xs)

def PyList.toList : PyList → List PyVal
  | .nil => []
  | .cons x xs => x :: PyList.toList xs

def PyDict.ofList : List (String × PyVal) → PyDict
  | [] => .nil
  | (k, v) :: kvs => .cons k v (PyDict.ofList kvs)

def PyDict.toList : PyDict → List (String × PyVal)
  | .nil => []
  | .cons k v kvs => (k, v) :: PyDict.toList kvs

/-- Build a list value from a `List`. -/
def pyL (xs : List PyVal) : PyVal := .list (PyList.ofList xs)

/-- Build a dict value from an association `List`. -/
def pyD (kvs : List (String × PyVal)) : PyVal := .dict (PyDict.ofList kvs)

def PyList.isNil : PyList → Bool
  | .nil => true
  | _ => false

def PyDict.isNil : PyDict → Bool
  | .nil => true
  | _ => false

/-- Python truthiness: `None`, `False`, `0`, `""`, `[]` and `\x7b\x7d` are falsy. -/
def PyVal.truthy : PyVal → Bool
  | .none => false
  | .bool b => b
  | .int n => n != 0
  | .str s => s != ""
  | .list xs => !xs.isNil
  | .dict kvs => !kvs.isNil

/-- Python `x or y`: `x` if truthy, else `y`. -/
def pyOr (a b : PyVal) : PyVal := if a.truthy then a else b

mutual
/-- Python `==` on JSON-shaped values (structural equality; the numeric
`1 == True` coercion is outside the model — the code only compares strings
and `None`). -/
def PyVal.beq : PyVal → PyVal → Bool
  | .none, .none => true
  | .bool a, .bool b => a == b
  | .int a, .int b => a == b
  | .str a, .str b => a == b
  | .list xs, .list ys => PyList.beq xs ys
  | .dict xs, .dict ys => PyDict.beq xs ys
  | _, _ => false

def PyList.beq : PyList → PyList → Bool
  | .nil, .nil => true
  | .cons a as, .cons b bs => PyVal.beq a b && PyList.beq as bs
  | _, _ => false

def PyDict.beq : PyDict → PyDict → Bool
  | .nil, .nil => true
  | .cons k1 v1 as, .cons k2 v2 bs => k1 == k2 && PyVal.beq v1 v2 && PyDict.beq as bs
  | _, _ => false
end

/-- Association-list lookup (first match; dict keys are unique because JSON
decoding overrides duplicates). -/
def lookupA : List (String × PyVal) → String → Option PyVal
  | [], _ => Option.none
  | (k, v) :: kvs, key => if k = key then Option.some v else lookupA kvs key

/-- Key membership, Python `key in d`. -/
def hasKey (kvs : List (String × PyVal)) (key : String) : Bool :=
  (lookupA kvs key).isSome

/-- Python `d.get(key)` on a value known (or hoped) to be a dict: raises
`AttributeError` on non-dicts, returns `None` for a missing key. -/
def PyVal.get : PyVal → String → Except String PyVal
  | .dict kvs, key => .ok ((lookupA kvs.toList key).getD .none)
  | _, _ => .error "AttributeError: get"

/-- Python `d.get(key, default)`. -/
def PyVal.getDefault : PyVal → String → PyVal → Except String PyVal
  | .dict kvs, key, dflt => .ok ((lookupA kvs.toList key).getD dflt)
  | _, _, _ => .error "AttributeError: get"

/-- Pure dict field access used on the specification side and inside
well-formedness predicates: missing key or non-dict yields `None`. -/
def dGet : PyVal → String → PyVal
  | .dict kvs, key => (lookupA kvs.toList key).getD .none
  | _, _ => .none

/-- Python `for x in v`: lists iterate elements, strings iterate characters,
dicts iterate keys; everything else raises `TypeError`. -/
def PyVal.iterate : PyVal → Except String (List PyVal)
  | .list xs => .ok xs.toList
  | .str s => .ok (s.data.map fun c => .str (String.singleton c))
  | .dict kvs => .ok (kvs.toList.map fun kv => .str kv.1)
  | _ => .error "TypeError: not iterable"

def PyVal.isDict : PyVal → Bool
  | .dict _ => true
  | _ => false

def PyVal.isList : PyVal → Bool
  | .list _ => true
  | _ => false

def PyVal.isStr : PyVal → Bool
  | .str _ => true
  | _ => false

def PyVal.isNone : PyVal → Bool
  | .none => true
  | _ => false

def PyVal.isInt : PyVal → Bool
  | .int _ => true
  | _ => false

mutual
/-- Python `str(v)` (container entries rendered with `repr`; string-quoting
simplified to plain single quotes — the converter never feeds containers
through `str`, so that is a corner of the model). -/
def pyStr : PyVal → String
  | .none => "None"
  | .bool b => if b then "True" else "False"
  | .int n => toString n
  | .str s => s
  | .list xs => "[" ++ reprL xs ++ "]"
  | .dict kvs => "\x7b" ++ reprD kvs ++ "\x7d"

def reprL : PyList → String
  | .nil => ""
  | .cons x .nil =>
    (match x with
     | .str s => "'" ++ s ++ "'"
     | v => pyStr v)
  | .cons x xs =>
    (match x with
     | .str s => "'" ++ s ++ "'"
     | v => pyStr v) ++ ", " ++ reprL xs

def reprD : PyDict → String
  | .nil => ""
  | .cons k v .nil =>
    "'" ++ k ++ "': " ++
    (match v with
     | .str s => "'" ++ s ++ "'"
     | v => pyStr v)
  | .cons k v kvs =>
    "'" ++ k ++ "': " ++
    (match v with
     | .str s => "'" ++ s ++ "'"
     | v => pyStr v) ++ ", " ++ reprD kvs
end

/-- Python `repr(v)`. -/
def pyRepr : PyVal → String
  | .str s => "'" ++ s ++ "'"
  | v => pyStr v

/-- The whitespace set stripped by Python's `str.strip` (ASCII part). -/
def isSpaceC (c : Char) : Bool :=
  c = ' ' || c = '\t' || c = '\n' || c = '\r' || c = '\x0b' || c = '\x0c'

/-- Python `str.strip()` on a char list. -/
def stripChars (l : List Char) : List Char :=
  ((l.dropWhile isSpaceC).reverse.dropWhile isSpaceC).reverse

/-- Python `str.strip()`. -/
def pyStripS (s : String) : String := String.mk (stripChars s.data)

/-- Python `(v or "").strip()` as used throughout the converter: raises
`AttributeError` when the surviving value is a truthy non-string. -/
def pyStripE (v : PyVal) : Except String String :=
  match v with
  | .str s => .ok (pyStripS s)
  | _ => .error "AttributeError: strip"

/-- Split a character list at every delimiter character (used for Python's
`str.split` and the `replace-then-split` chains; structural so that concrete
inputs evaluate by `decide`/`rfl`). -/
def splitChar (delim : Char → Bool) : List Char → List Char → List (List Char)
  | [], acc => [acc.reverse]
  | c :: cs, acc =>
    if delim c then acc.reverse :: splitChar delim cs []
    else splitChar delim cs (c :: acc)

/-- Python `str.lower` (ASCII; the converter's keywords are ASCII/Korean and
Korean has no case). -/
def lowerStr (s : String) : String := String.mk (s.data.map Char.toLower)

/-- Python `t.lower().replace(" ", "")`. -/
def lowerNoSpace (s : String) : String :=
  String.mk ((s.data.map Char.toLower).filter (fun c => c ≠ ' '))

/-! ### Text sanitizer (`strip_markers`, src/app.py lines 37-49)

`CITE_PATTERN = \s*\[\s*cite\s*:\s*.*?\]\s*` (IGNORECASE, DOTALL) and
`SOURCE_PAREN_PATTERN = \s*\(\s*source[^)]*\)\s*` (IGNORECASE) are embedded as
explicit scanners.  For these patterns the regex engine's behaviour is
equivalent to: at each position, greedily eat whitespace, require the opening
bracket, the (case-insensitive) keyword, then everything up to the first
closing bracket, then trailing whitespace; `re.sub` replaces the leftmost
match and resumes after it. -/

/-- Case-insensitive match of the (lowercase) pattern against a prefix;
returns the remaining input. -/
def matchCI : List Char → List Char → Option (List Char)
  | [], rest => Option.some rest
  | _ :: _, [] => Option.none
  | p :: ps, c :: rest => if c.toLower = p then matchCI ps rest else Option.none

/-- Drop everything up to and including the first occurrence of `target`
(`.*?x` / `[^x]*x`); fails when `target` does not occur. -/
def dropToAfter (target : Char) : List Char → Option (List Char)
  | [] => Option.none
  | c :: cs => if c = target then Option.some cs else dropToAfter target cs

/-- One attempt of `CITE_PATTERN` at the start of the input. -/
def tryCite (cs : List Char) : Option (List Char) :=
  match cs.dropWhile isSpaceC with
  | [] => Option.none
  | c :: s2 =>
    if c = '[' then
      match matchCI "cite".data (s2.dropWhile isSpaceC) with
      | Option.some s4 =>
        match s4.dropWhile isSpaceC with
        | [] => Option.none
        | c2 :: s6 =>
          if c2 = ':' then
            match dropToAfter ']' s6 with
            | Option.some s7 => Option.some (s7.dropWhile isSpaceC)
            | Option.none => Option.none
          else Option.none
      | Option.none => Option.none
    else Option.none

/-- One attempt of `SOURCE_PAREN_PATTERN` at the start of the input. -/
def trySource (cs : List Char) : Option (List Char) :=
  match cs.dropWhile isSpaceC with
  | [] => Option.none
  | c :: s2 =>
    if c = '(' then
      match matchCI "source".data (s2.dropWhile isSpaceC) with
      | Option.some s4 =>
        match dropToAfter ')' s4 with
        | Option.some s5 => Option.some (s5.dropWhile isSpaceC)
        | Option.none => Option.none
      | Option.none => Option.none
    else Option.none

/-- `re.sub(CITE_PATTERN, " ", ·)`, fuel-bounded scan. -/
def subCiteF : Nat → List Char → List Char
  | 0, cs => cs
  | fuel + 1, cs =>
    match tryCite cs with
    | Option.some rest => ' ' :: subCiteF fuel rest
    | Option.none =>
      match cs with
      | [] => []
      | c :: rest => c :: subCiteF fuel rest

def subCite (cs : List Char) : List Char := subCiteF (cs.length + 1) cs

/-- `re.sub(SOURCE_PAREN_PATTERN, " ", ·)`, fuel-bounded scan. -/
def subSourceF : Nat → List Char → List Char
  | 0, cs => cs
  | fuel + 1, cs =>
    match trySource cs with
    | Option.some rest => ' ' :: subSourceF fuel rest
    | Option.none =>
      match cs with
      | [] => []
      | c :: rest => c :: subSourceF fuel rest

def subSource (cs : List Char) : List Char := subSourceF (cs.length + 1) cs

def isHT (c : Char) : Bool := c = ' ' || c = '\t'

/-- `re.sub(r"[ \t]+", " ", ·)`: collapse runs of horizontal whitespace. -/
def collapseHT : List Char → List Char
  | [] => []
  | [c] => if isHT c then [' '] else [c]
  | c1 :: c2 :: rest =>
    if isHT c1 && isHT c2 then collapseHT (c2 :: rest)
    else (if isHT c1 then ' ' else c1) :: collapseHT (c2 :: rest)

/-- `strip_markers` on an actual string. -/
def strip_markers_str (s : String) : String :=
  String.mk (stripChars (collapseHT (subSource (subCite s.data))))

/-- `strip_markers(text)`: `None` maps to `""`, anything else through `str`. -/
def strip_markers (text : PyVal) : String :=
  match text with
  | .none => ""
  | v => strip_markers_str (pyStr v)

/-! ### Non Track filename parser (src/app.py lines 66-86) -/

/-- `" ".join(tokens)`. -/
def joinSp : List String → String
  | [] => ""
  | [t] => t
  | t :: ts => t ++ " " ++ joinSp ts

def title_tokens_nt (stem : String) : List String :=
  (((splitChar (fun c => c = '_') stem.data []).map (fun l => pyStripS (String.mk l)))).filter
    (fun t => t ≠ "")

def is_trailing_excluded_nt (token : String) : Bool :=
  let t := lowerNoSpace token
  t == "skill" || t == "hc제외"

/-- `parse_org_role_from_filename_nt`, on the filename stem.  The `while`
loop that decrements `end` while the last kept token is excluded (but never
past index 1) is exactly: drop the maximal excluded suffix of the tokens
after the organization, and if that suffix is everything, keep them all. -/
def parse_org_role_from_filename_nt (stem : String) : String × String × String :=
  match title_tokens_nt stem with
  | [] => ("unknown", "", "")
  | org :: rest =>
    let kept := (rest.reverse.dropWhile is_trailing_excluded_nt).reverse
    let role_tokens := if kept.isEmpty then rest else kept
    (org, joinSp role_tokens, joinSp role_tokens)

/-- Length of the maximal suffix of `ts` all of whose tokens are excluded —
the specification-side counterpart, written as a forward recursion over the
token list ("drop trailing tokens ... stopping at the first non-matching
trailing token"). -/
def excluded_suffix_len_spec : List String → Nat
  | [] => 0
  | t :: ts =>
    let n := excluded_suffix_len_spec ts
    if n = ts.length ∧ is_trailing_excluded_nt t then n + 1 else n

/-- Modelled from the claim's words for C4: first token is the organization;
trailing excluded tokens are dropped from the end, unless that would drop
every non-organization token, in which case all are kept. -/
def parse_org_role_spec (stem : String) : String × String × String :=
  match title_tokens_nt stem with
  | [] => ("unknown", "", "")
  | org :: rest =>
    let k := excluded_suffix_len_spec rest
    let role_tokens := if k = rest.length then rest else rest.take (rest.length - k)
    (org, joinSp role_tokens, joinSp role_tokens)

/-! ### Payload loader (`load_json_from_txt_bytes`, src/app.py lines 105-115)

A strict JSON parser in the style of Python's `json.loads`, fuel-bounded.
Model limitation: numbers are parsed as integers only (a fractional or
exponent part is a parse failure); surrogate-pair `\uXXXX` escapes are not
recombined.  The payload claims do not involve non-integral numbers. -/

def jsonWs (c : Char) : Bool := c = ' ' || c = '\t' || c = '\n' || c = '\r'

def hexVal (c : Char) : Option Nat :=
  if '0' ≤ c ∧ c ≤ '9' then Option.some (c.toNat - '0'.toNat)
  else if 'a' ≤ c ∧ c ≤ 'f' then Option.some (c.toNat - 'a'.toNat + 10)
  else if 'A' ≤ c ∧ c ≤ 'F' then Option.some (c.toNat - 'A'.toNat + 10)
  else Option.none

/-- JSON string body after the opening quote. -/
def parseStringBody : Nat → List Char → Option (List Char × List Char)
  | 0, _ => Option.none
  | fuel + 1, cs =>
    match cs with
    | [] => Option.none
    | '"' :: rest => Option.some ([], rest)
    | '\\' :: e :: rest =>
      let push (c : Char) (rs : List Char) : Option (List Char × List Char) :=
        match parseStringBody fuel rs with
        | Option.some (s, r) => Option.some (c :: s, r)
        | Option.none => Option.none
      match e with
      | '"' => push '"' rest
      | '\\' => push '\\' rest
      | '/' => push '/' rest
      | 'b' => push '\x08' rest
      | 'f' => push '\x0c' rest
      | 'n' => push '\n' rest
      | 'r' => push '\r' rest
      | 't' => push '\t' rest
      | 'u' =>
        match rest with
        | h1 :: h2 :: h3 :: h4 :: rs =>
          match hexVal h1, hexVal h2, hexVal h3, hexVal h4 with
          | Option.some a, Option.some b, Option.some c, Option.some d =>
            let n := ((a * 16 + b) * 16 + c) * 16 + d
            if h : n.isValidChar then push (Char.ofNatAux n h) rs else Option.none
          | _, _, _, _ => Option.none
        | _ => Option.none
      | _ => Option.none
    | c :: rest =>
      if c.toNat < 32 then Option.none
      else
        match parseStringBody fuel rest with
        | Option.some (s, r) => Option.some (c :: s, r)
        | Option.none => Option.none

def isDigitC (c : Char) : Bool := '0' ≤ c && c ≤ '9'

def digitsToNat (acc : Nat) : List Char → Nat
  | [] => acc
  | c :: cs => digitsToNat (acc * 10 + (c.toNat - '0'.toNat)) cs

/-- JSON integer literal (leading-zero rule enforced; a following `.`/`e`
would be a float, which the model rejects). -/
def parseIntLit (cs : List Char) : Option (Int × List Char) :=
  let core (l : List Char) : Option (Nat × List Char) :=
    match l with
    | '0' :: rest =>
      match rest with
      | c :: _ => if isDigitC c then Option.none else Option.some (0, rest)
      | [] => Option.some (0, [])
    | c :: _ =>
      if isDigitC c then
        let ds := l.takeWhile isDigitC
        Option.some (digitsToNat 0 ds, l.dropWhile isDigitC)
      else Option.none
    | [] => Option.none
  let checkTail (n : Int) (rest : List Char) : Option (Int × List Char) :=
    match rest with
    | c :: _ => if c = '.' || c = 'e' || c = 'E' then Option.none else Option.some (n, rest)
    | [] => Option.some (n, [])
  match cs with
  | '-' :: rest =>
    match core rest with
    | Option.some (n, r) => checkTail (-(n : Int)) r
    | Option.none => Option.none
  | _ =>
    match core cs with
    | Option.some (n, r) => checkTail (n : Int) r
    | Option.none => Option.none

def isLitPrefix (lit : List Char) (cs : List Char) : Bool :=
  lit.isPrefixOf cs

/-- Insert a key into an object, Python-dict style (later duplicate keys
override in place). -/
def assocSet (kvs : List (String × PyVal)) (k : String) (v : PyVal) : List (String × PyVal) :=
  if hasKey kvs k then kvs.map (fun kv => if kv.1 = k then (k, v) else kv)
  else kvs ++ [(k, v)]

mutual
def parseValue : Nat → List Char → Option (PyVal × List Char)
  | 0, _ => Option.none
  | fuel + 1, cs =>
    if isLitPrefix "null".data cs then Option.some (.none, cs.drop 4)
    else if isLitPrefix "true".data cs then Option.some (.bool true, cs.drop 4)
    else if isLitPrefix "false".data cs then Option.some (.bool false, cs.drop 5)
    else
      match cs with
      | '"' :: rest =>
        match parseStringBody (fuel + 1) rest with
        | Option.some (s, r) => Option.some (.str (String.mk s), r)
        | Option.none => Option.none
      | '[' :: rest =>
        let r1 := rest.dropWhile jsonWs
        match r1 with
        | ']' :: r2 => Option.some (pyL [], r2)
        | _ =>
          match parseArrayItems fuel r1 with
          | Option.some (xs, r) => Option.some (pyL xs, r)
          | Option.none => Option.none
      | '\x7b' :: rest =>
        let r1 := rest.dropWhile jsonWs
        match r1 with
        | '\x7d' :: r2 => Option.some (pyD [], r2)
        | _ =>
          match parseObjItems fuel r1 [] with
          | Option.some (kvs, r) => Option.some (pyD kvs, r)
          | Option.none => Option.none
      | _ =>
        match parseIntLit cs with
        | Option.some (n, r) => Option.some (.int n, r)
        | Option.none => Option.none

def parseArrayItems : Nat → List Char → Option (List PyVal × List Char)
  | 0, _ => Option.none
  | fuel + 1, cs =>
    match parseValue fuel cs with
    | Option.some (v, r) =>
      match r.dropWhile jsonWs with
      | ',' :: r2 =>
        match parseArrayItems fuel (r2.dropWhile jsonWs) with
        | Option.some (xs, r3) => Option.some (v :: xs, r3)
        | Option.none => Option.none
      | ']' :: r2 => Option.some ([v], r2)
      | _ => Option.none
    | Option.none => Option.none

def parseObjItems : Nat → List Char → List (String × PyVal) →
    Option (List (String × PyVal) × List Char)
  | 0, _, _ => Option.none
  | fuel + 1, cs, acc =>
    match cs with
    | '"' :: rest =>
      match parseStringBody (fuel + 1) rest with
      | Option.some (k, r) =>
        match r.dropWhile jsonWs with
        | ':' :: r2 =>
          match parseValue fuel (r2.dropWhile jsonWs) with
          | Option.some (v, r3) =>
            let acc2 := assocSet acc (String.mk k) v
            match r3.dropWhile jsonWs with
            | ',' :: r4 => parseObjItems fuel (r4.dropWhile jsonWs) acc2
            | '\x7d' :: r4 => Option.some (acc2, r4)
            | _ => Option.none
          | Option.none => Option.none
        | _ => Option.none
      | Option.none => Option.none
    | _ => Option.none
end

/-- `json.loads` on decoded text. -/
def json_loads_chars (cs : List Char) : Except String PyVal :=
  match parseValue (2 * cs.length + 8) (cs.dropWhile jsonWs) with
  | Option.some (v, rest) =>
    if (rest.dropWhile jsonWs).isEmpty then .ok v else .error "JSONDecodeError: extra data"
  | Option.none => .error "JSONDecodeError"

/-- `b.decode("utf-8-sig")` strips one byte-order mark. -/
def stripBom (cs : List Char) : List Char :=
  match cs with
  | [] => []
  | c :: rest => if c = '\uFEFF' then rest else c :: rest

/-- `Except.isOk` as a plain function. -/
def exceptIsOk {α : Type} (e : Except String α) : Bool :=
  match e with
  | .ok _ => true
  | .error _ => false

/-- The "first `\x7b` to last `\x7d`" substring (`txt.find`/`txt.rfind` plus
the `start < end` check); `none` when no such pair exists. -/
def brace_slice (cs : List Char) : Option (List Char) :=
  match cs.findIdx? (fun c => c = '\x7b'), cs.reverse.findIdx? (fun c => c = '\x7d') with
  | Option.some i, Option.some jr =>
    let j := cs.length - 1 - jr
    if i < j then Option.some ((cs.drop i).take (j - i + 1)) else Option.none
  | _, _ => Option.none

/-- `load_json_from_txt_bytes`: direct parse, else the slice from the first
`\x7b` to the last `\x7d` inclusive, else the parse error propagates. -/
def load_json_from_txt_bytes (txt : String) : Except String PyVal :=
  let cs := stripBom txt.data
  match json_loads_chars cs with
  | .ok v => .ok v
  | .error e =>
    match brace_slice cs with
    | Option.some sub => json_loads_chars sub
    | Option.none => .error e

/-! ### Skill/Task normalizer (src/app.py lines 117-179) -/

def sepJoin (sep : String) : List String → String
  | [] => ""
  | [t] => t
  | t :: ts => t ++ sep ++ sepJoin sep ts

/-- `normalize_list` (src/app.py lines 137-150). -/
def normalize_list (val : PyVal) : List String :=
  match val with
  | .none => []
  | .list xs => (xs.toList.map (fun x => pyStripS (pyStr x))).filter (fun s => s ≠ "")
  | v =>
    let s := pyStripS (pyStr v)
    if s = "" then []
    else
      (((splitChar (fun c => c = ';' || c = '/' || c = ',') s.data []).map
        (fun l => pyStripS (String.mk l)))).filter (fun c => c ≠ "")

/-- `lower_map.get(key)` for `lower_map = \x7bstr(k).lower(): v ...\x7d`:
later entries of the comprehension override earlier ones. -/
def lowerMapLookup (kvs : List (String × PyVal)) (key : String) : PyVal :=
  match kvs.reverse.find? (fun kv => lowerStr kv.1 = key) with
  | Option.some kv => kv.2
  | Option.none => .none

/-- `extract_tech_lines_nt` (src/app.py lines 152-163). -/
def extract_tech_lines_nt (tech_stack : PyVal) : String :=
  let kvs := match tech_stack with
    | .dict kvs => kvs.toList
    | _ => ([] : List (String × PyVal))
  let languages := normalize_list
    (pyOr (lowerMapLookup kvs "language") (lowerMapLookup kvs "languages"))
  let os_list := normalize_list
    (pyOr (lowerMapLookup kvs "os")
      (pyOr (lowerMapLookup kvs "platform") (lowerMapLookup kvs "operating_system")))
  let tools := normalize_list
    (pyOr (lowerMapLookup kvs "tools") (lowerMapLookup kvs "tool"))
  let lines :=
    (if languages.isEmpty then [] else ["* language: " ++ sepJoin ", " languages]) ++
    (if os_list.isEmpty then [] else ["* os: " ++ sepJoin ", " os_list]) ++
    (if tools.isEmpty then [] else ["* tools: " ++ sepJoin ", " tools])
  strip_markers_str (sepJoin "\n" lines)

/-- `bullet_lines` (src/app.py lines 165-167). -/
def bullet_lines (items : List String) : String :=
  let its := (items.map pyStripS).filter (fun i => i ≠ "")
  sepJoin "\n" (its.map (fun i => "* " ++ i))

/-- The `task_id → task_name` lookup; built by Python dict assignment, so a
later insertion overrides an earlier one (we cons and look up front-first). -/
def mapHas (m : List (String × String)) (k : String) : Bool :=
  m.any (fun kv => kv.1 = k)

def mapGet (m : List (String × String)) (k : String) : String :=
  match m.find? (fun kv => kv.1 = k) with
  | Option.some kv => kv.2
  | Option.none => ""

def build_task_map : List PyVal → List (String × String) → Except String (List (String × String))
  | [], m => .ok m
  | t :: ts, m =>
    match t.get "task_id" with
    | .error e => .error e
    | .ok tidV =>
      let tid := pyStripS (pyStr (pyOr tidV (.str "")))
      match t.get "task_name" with
      | .error e => .error e
      | .ok tnV =>
        let tname := pyStripS (pyStr (pyOr tnV (.str "")))
        if tid ≠ "" && tname ≠ "" then build_task_map ts ((tid, tname) :: m)
        else build_task_map ts m

/-- Loop body of `related_task_names_nt` (src/app.py lines 169-179). -/
def resolve_rt_name (m : List (String × String)) (rt : PyVal) : Except String String :=
  match rt.get "task_name" with
  | .error e => .error e
  | .ok nv =>
    match pyStripE (pyOr nv (.str "")) with
    | .error e => .error e
    | .ok nm0 =>
      if nm0 = "" then
        match rt.get "task_id" with
        | .error e => .error e
        | .ok tv =>
          match pyStripE (pyOr tv (.str "")) with
          | .error e => .error e
          | .ok tid => .ok (if tid ≠ "" && mapHas m tid then mapGet m tid else "")
      else .ok nm0

def related_names_go (m : List (String × String)) : List PyVal → Except String (List String)
  | [] => .ok []
  | rt :: rest =>
    match resolve_rt_name m rt with
    | .error e => .error e
    | .ok nm =>
      match related_names_go m rest with
      | .error e => .error e
      | .ok tail => .ok (if nm ≠ "" then nm :: tail else tail)

def related_task_names_nt (related_tasks : PyVal) (m : List (String × String)) :
    Except String (List String) :=
  match (pyOr related_tasks (pyL [])).iterate with
  | .error e => .error e
  | .ok rts => related_names_go m rts

/-- One yielded record of the `iter_skills_nt` generator
(src/app.py lines 120-135). -/
def iter_skill_item (item : PyVal) : Except String PyVal :=
  match item with
  | .dict kvs0 =>
    let kvs := kvs0.toList
    if hasKey kvs "skill" then
      let s := pyOr ((lookupA kvs "skill").getD .none) (pyD [])
      match s.getDefault "name" (.str ""), s.getDefault "definition" (.str ""),
          s.getDefault "tech_stack" (pyD []), s.get "related_tasks" with
      | .ok name, .ok definition, .ok stack, .ok innerRel =>
        let related := pyOr ((lookupA kvs "related_tasks").getD .none) (pyOr innerRel (pyL []))
        .ok (pyD [("name", name), ("definition", definition),
                  ("tech_stack", stack), ("related_tasks", related)])
      | _, _, _, _ => .error "AttributeError: get"
    else
      let name := (lookupA kvs "name").getD (.str "")
      let definition := (lookupA kvs "definition").getD (.str "")
      let stack := (lookupA kvs "tech_stack").getD (pyD [])
      let related := pyOr ((lookupA kvs "related_tasks").getD .none) (pyL [])
      .ok (pyD [("name", name), ("definition", definition),
                ("tech_stack", stack), ("related_tasks", related)])
  | _ =>
    .ok (pyD [("name", .str ""), ("definition", .str ""),
              ("tech_stack", pyD []), ("related_tasks", pyL [])])

/-- Error-propagating map. -/
def mapE (f : PyVal → Except String PyVal) : List PyVal → Except String (List PyVal)
  | [] => .ok []
  | x :: xs =>
    match f x with
    | .error e => .error e
    | .ok y =>
      match mapE f xs with
      | .error e => .error e
      | .ok ys => .ok (y :: ys)

/-- `iter_skills_nt(obj)`, fully materialized. -/
def iter_skills_nt (obj : PyVal) : Except String (List PyVal) :=
  match obj.get "skills" with
  | .error e => .error e
  | .ok sv =>
    match (pyOr sv (pyL [])).iterate with
    | .error e => .error e
    | .ok items => mapE iter_skill_item items

/-! ### Track-mode data selection (src/app.py lines 307-379) -/

/-- `get_skill_field` (src/app.py lines 311-315): nested shape is used only
when the `skill` sub-value is itself a dict. -/
def get_skill_field (s : PyVal) (key : String) : Except String PyVal :=
  match s with
  | .dict kvs0 =>
    let kvs := kvs0.toList
    match lookupA kvs "skill" with
    | Option.some (.dict inner) => .ok ((lookupA inner.toList key).getD .none)
    | _ => .ok ((lookupA kvs key).getD .none)
  | _ => .error "AttributeError: get"

/-- `get_skill_related_tasks` (src/app.py lines 317-320): note the inner
`s["skill"].get` is reached only when the outer value is falsy, and is not
guarded by an `isinstance` check. -/
def get_skill_related_tasks (s : PyVal) : Except String PyVal :=
  match s with
  | .dict kvs0 =>
    let kvs := kvs0.toList
    if hasKey kvs "skill" then
      let a := (lookupA kvs "related_tasks").getD .none
      if a.truthy then .ok a
      else
        match ((lookupA kvs "skill").getD .none).get "related_tasks" with
        | .error e => .error e
        | .ok b => .ok (pyOr b (pyL []))
    else .ok (pyOr ((lookupA kvs "related_tasks").getD .none) (pyL []))
  | _ => .error "AttributeError: get"

/-- `get_skill_track` (src/app.py lines 322-324). -/
def get_skill_track (s : PyVal) : Except String PyVal :=
  match s.get "track" with
  | .error e => .error e
  | .ok t => .ok (pyOr t (pyD []))

/-- `select_tasks_for_track` (src/app.py lines 307-309). -/
def tasks_match_go (tn : PyVal) : List PyVal → Except String (List PyVal)
  | [] => .ok []
  | t :: ts =>
    match t.get "track" with
    | .error e => .error e
    | .ok trV =>
      match (pyOr trV (pyD [])).get "name" with
      | .error e => .error e
      | .ok nm =>
        match tasks_match_go tn ts with
        | .error e => .error e
        | .ok rest => .ok (if nm.beq tn then t :: rest else rest)

def select_tasks_for_track (all_tasks : List PyVal) (tn : PyVal) (limit : Nat) :
    Except String (List PyVal) :=
  match tasks_match_go tn all_tasks with
  | .error e => .error e
  | .ok sel => .ok (sel.take limit)

/-- Inner `for rt in get_skill_related_tasks(s) or []` of
`select_skills_for_track`. -/
def anyRtMatches (tn tc : PyVal) : List PyVal → Except String Bool
  | [] => .ok false
  | rt :: rts =>
    match rt.get "track" with
    | .error e => .error e
    | .ok trtV =>
      let trt := pyOr trtV (pyD [])
      match trt.get "name" with
      | .error e => .error e
      | .ok n =>
        if n.beq tn then .ok true
        else
          match trt.get "code" with
          | .error e => .error e
          | .ok c => if c.beq tc then .ok true else anyRtMatches tn tc rts

/-- Whether one skill lands in `matched` (body of the first loop of
`select_skills_for_track`, src/app.py lines 327-338). -/
def skill_matched (tn tc : PyVal) (s : PyVal) : Except String Bool :=
  match get_skill_track s with
  | .error e => .error e
  | .ok tr0 =>
    let tr := pyOr tr0 (pyD [])
    match s.get "track_scope" with
    | .error e => .error e
    | .ok scope =>
      match tr.get "name" with
      | .error e => .error e
      | .ok n =>
        if n.beq tn then .ok true
        else
          match tr.get "code" with
          | .error e => .error e
          | .ok c =>
            if c.beq tc then .ok true
            else if scope.beq (.str "common") then
              match get_skill_related_tasks s with
              | .error e => .error e
              | .ok rel =>
                match (pyOr rel (pyL [])).iterate with
                | .error e => .error e
                | .ok rts => anyRtMatches tn tc rts
            else .ok false

def select_matched (tn tc : PyVal) : List PyVal → Except String (List PyVal)
  | [] => .ok []
  | s :: ss =>
    match skill_matched tn tc s with
    | .error e => .error e
    | .ok keep =>
      match select_matched tn tc ss with
      | .error e => .error e
      | .ok rest => .ok (if keep then s :: rest else rest)

/-- Name-based dedup of `select_skills_for_track` (src/app.py lines 339-344):
`sk_name = (get_skill_field(s, "name") or "").strip()`, kept only when
non-empty and unseen. -/
def skill_dedup_name (s : PyVal) : Except String String :=
  match get_skill_field s "name" with
  | .error e => .error e
  | .ok nv => pyStripE (pyOr nv (.str ""))

def dedup_names : List PyVal → List String → Except String (List PyVal)
  | [], _ => .ok []
  | s :: ss, seen =>
    match skill_dedup_name s with
    | .error e => .error e
    | .ok nm =>
      if nm ≠ "" && !(seen.contains nm) then
        match dedup_names ss (nm :: seen) with
        | .error e => .error e
        | .ok rest => .ok (s :: rest)
      else dedup_names ss seen

/-- `rank_key` (src/app.py lines 346-348): `(r is None, r if r is not None
else 10**9)`.  Ranks are modelled as integers (`bool` ranks compare as their
int value, as in Python); other rank types would raise on comparison in
Python, compared here as 0 — no claim touches them. -/
def rank_key (s : PyVal) : Bool × Int :=
  match get_skill_field s "rank" with
  | .ok (.int n) => (false, n)
  | .ok .none => (true, 10 ^ 9)
  | .ok (.bool b) => (false, if b then 1 else 0)
  | _ => (false, 0)

def rankLe (a b : PyVal) : Bool :=
  let ka := rank_key a
  let kb := rank_key b
  (!ka.1 && kb.1) || (ka.1 == kb.1 && decide (ka.2 ≤ kb.2))

/-- Stable insertion sort: for a total preorder this is the unique
stable-ascending reordering, which is what Python's `list.sort` produces. -/
def insertByLe (le : PyVal → PyVal → Bool) (x : PyVal) : List PyVal → List PyVal
  | [] => [x]
  | y :: ys => if le x y then x :: y :: ys else y :: insertByLe le x ys

def stableSortByLe (le : PyVal → PyVal → Bool) : List PyVal → List PyVal
  | [] => []
  | x :: xs => insertByLe le x (stableSortByLe le xs)

/-- `select_skills_for_track` (src/app.py lines 326-350). -/
def select_skills_for_track (all_skills : List PyVal) (track_name track_code : PyVal)
    (limit : Nat) : Except String (List PyVal) :=
  match select_matched track_name track_code all_skills with
  | .error e => .error e
  | .ok matched =>
    match dedup_names matched [] with
    | .error e => .error e
    | .ok uniq => .ok ((stableSortByLe rankLe uniq).take limit)

/-- `bullets_from_related_tasks` (src/app.py lines 353-361). -/
def bullets_rt_go (tn : PyVal) (seen : List PyVal) : List PyVal → Except String (List PyVal)
  | [] => .ok []
  | rt :: rest =>
    let rtd := pyOr rt (pyD [])
    match rtd.get "task_name" with
    | .error e => .error e
    | .ok tname =>
      match rtd.get "track" with
      | .error e => .error e
      | .ok ttrV =>
        match (pyOr ttrV (pyD [])).get "name" with
        | .error e => .error e
        | .ok ttrack =>
          if tname.truthy && ttrack.beq tn && !(seen.any (fun x => x.beq tname)) then
            match bullets_rt_go tn (tname :: seen) rest with
            | .error e => .error e
            | .ok tail => .ok (tname :: tail)
          else bullets_rt_go tn seen rest

def bullets_from_related_tasks (related_tasks : PyVal) (current_track_name : PyVal) :
    Except String String :=
  if related_tasks.truthy then
    match related_tasks.iterate with
    | .error e => .error e
    | .ok rts =>
      match bullets_rt_go current_track_name [] rts with
      | .error e => .error e
      | .ok names => .ok (sepJoin "\n" (names.map (fun n => "* " ++ pyStr n)))
  else .ok ""

/-- `listify_tech_value` (src/app.py lines 363-368). -/
def listify_tech_value (v : PyVal) : List String :=
  match v with
  | .none => []
  | .list xs =>
    (xs.toList.filter (fun x => pyStripS (pyStr x) ≠ "")).map (fun x => strip_markers x)
  | v =>
    let parts := (splitChar (fun c => c = ';' || c = ',' || c = '/') (pyStr v).data []).map
      String.mk
    (parts.filter (fun x => pyStripS x ≠ "")).map (fun x => strip_markers_str (pyStripS x))

/-- One `* key: ...` line of `bullets_from_tech_stack`. -/
def tech_line_for (ts : PyVal) (key : String) : Except String (List String) :=
  match ts.get key with
  | .error e => .error e
  | .ok vals =>
    let items := (listify_tech_value vals).filter (fun x => x ≠ "")
    .ok (if items.isEmpty then [] else ["* " ++ key ++ ": " ++ sepJoin ", " items])

/-- `bullets_from_tech_stack` (src/app.py lines 370-379): exact, lower-case
key lookup for `language`/`os`/`tools` only. -/
def bullets_from_tech_stack (tech_stack : PyVal) : Except String String :=
  let ts := pyOr tech_stack (pyD [])
  match tech_line_for ts "language", tech_line_for ts "os", tech_line_for ts "tools" with
  | .ok l1, .ok l2, .ok l3 => .ok (sepJoin "\n" (l1 ++ l2 ++ l3))
  | .error e, _, _ => .error e
  | _, .error e, _ => .error e
  | _, _, .error e => .error e

/-! ### Worksheet model and sheet writers (src/app.py lines 88-103, 181-223,
382-424)

A worksheet is its grid of cell values, addressed by (column index, row):
column A is 1, B 2, C 3, D 4, F 6.  Only cell values are modelled;
wrap/alignment mutation (`with_wrap`, `ensure_wrap`, `set_vertical_center_all`)
and the `D1:D2` merge do not change any cell value and are outside the
model. -/

def Sheet : Type := Nat × Nat → PyVal

def Sheet.set (ws : Sheet) (c r : Nat) (v : PyVal) : Sheet :=
  fun p => if p = (c, r) then v else ws p

/-- `set_text` writes a string value (wrap alignment not modelled). -/
def set_text (ws : Sheet) (c r : Nat) (text : String) : Sheet :=
  ws.set c r (.str text)

/-- `collect_tasks_nt` (src/app.py lines 117-118). -/
def collect_tasks_nt (obj : PyVal) : Except String PyVal :=
  match obj.get "tasks" with
  | .error e => .error e
  | .ok t => .ok (pyOr t (pyL []))

/-- Python slicing `v[:n]`. -/
def pySliceTake (v : PyVal) (n : Nat) : Except String PyVal :=
  match v with
  | .list xs => .ok (pyL (xs.toList.take n))
  | .str s => .ok (.str (String.mk (s.data.take n)))
  | _ => .error "TypeError: not subscriptable"

def nt_task_cellA (t : PyVal) : Except String String :=
  match t.get "task_name" with
  | .error e => .error e
  | .ok nv => .ok (pyStripS (pyStr (pyOr nv (.str ""))))

def nt_task_cellC (t : PyVal) : Except String String :=
  match t.get "task_description" with
  | .error e => .error e
  | .ok dv => .ok (pyStripS (pyStr (pyOr dv (.str ""))))

/-- Non Track task fill loop (src/app.py lines 197-201). -/
def fill_tasks_nt : Sheet → Nat → List PyVal → Except String Sheet
  | ws, _, [] => .ok ws
  | ws, row, t :: ts =>
    match nt_task_cellA t with
    | .error e => .error e
    | .ok a =>
      match nt_task_cellC t with
      | .error e => .error e
      | .ok c => fill_tasks_nt (set_text (set_text ws 1 row a) 3 row c) (row + 1) ts

/-- `for r in range(row, endRow + 1): blank the given columns` — `k` is the
number of rows in the range. -/
def blank_rows_go (cols : List Nat) : Sheet → Nat → Nat → Sheet
  | ws, _, 0 => ws
  | ws, r, k + 1 => blank_rows_go cols (cols.foldl (fun w c => set_text w c r "") ws) (r + 1) k

/-- Non Track skill row body (src/app.py lines 210-218). -/
def nt_skill_cells (m : List (String × String)) (s : PyVal) :
    Except String (String × String × String × String) :=
  match s.get "related_tasks" with
  | .error e => .error e
  | .ok relV =>
    match related_task_names_nt relV m with
    | .error e => .error e
    | .ok rel_names =>
      let a := if rel_names.isEmpty then "" else bullet_lines rel_names
      match s.get "name", s.get "definition", s.get "tech_stack" with
      | .ok nv, .ok dv, .ok tv =>
        .ok (a, pyStripS (pyStr (pyOr nv (.str ""))), strip_markers dv,
             extract_tech_lines_nt tv)
      | _, _, _ => .error "AttributeError: get"

def fill_skills_nt (m : List (String × String)) : Sheet → Nat → List PyVal → Except String Sheet
  | ws, _, [] => .ok ws
  | ws, r, s :: ss =>
    match nt_skill_cells m s with
    | .error e => .error e
    | .ok cells =>
      fill_skills_nt m (set_text (set_text (set_text (set_text ws 1 r cells.1) 2 r cells.2.1)
        4 r cells.2.2.1) 6 r cells.2.2.2) (r + 1) ss

/-- `build_workbook_nontrack` (src/app.py lines 181-223), on the two located
sheets.  The skill generator is consumed lazily with a break after 7 rows, so
at most the first 8 raw entries are ever normalized. -/
def build_task_sheet_nt (ws_task0 : Sheet) (org role : String) (data : PyVal) :
    Except String (Sheet × List (String × String)) :=
  let wsT := set_text (set_text ws_task0 2 1 org) 2 2 role
  match collect_tasks_nt data with
  | .error e => .error e
  | .ok tasksV =>
    match tasksV.iterate with
    | .error e => .error e
    | .ok allTasks =>
      match build_task_map allTasks [] with
      | .error e => .error e
      | .ok m =>
        match pySliceTake tasksV 10 with
        | .error e => .error e
        | .ok tasksSlice =>
          match tasksSlice.iterate with
          | .error e => .error e
          | .ok firstTasks =>
            match fill_tasks_nt wsT 5 firstTasks with
            | .error e => .error e
            | .ok wsT2 =>
              .ok (blank_rows_go [1, 3] wsT2 (5 + firstTasks.length)
                    (14 + 1 - (5 + firstTasks.length)), m)

def build_skill_sheet_nt (ws_skill0 : Sheet) (org role : String) (data : PyVal)
    (m : List (String × String)) : Except String Sheet :=
  let wsS := set_text (set_text ws_skill0 2 1 org) 2 2 role
  match data.get "skills" with
  | .error e => .error e
  | .ok sv =>
    match (pyOr sv (pyL [])).iterate with
    | .error e => .error e
    | .ok items =>
      match mapE iter_skill_item (items.take 8) with
      | .error e => .error e
      | .ok norm =>
        let used := norm.take 7
        match fill_skills_nt m wsS 5 used with
        | .error e => .error e
        | .ok wsS2 =>
          .ok (blank_rows_go [1, 2, 4, 6] wsS2 (5 + used.length) (11 + 1 - (5 + used.length)))

def build_workbook_nontrack (ws_task0 ws_skill0 : Sheet) (org role : String) (data : PyVal) :
    Except String (Sheet × Sheet) :=
  match build_task_sheet_nt ws_task0 org role data with
  | .error e => .error e
  | .ok (wsT, m) =>
    match build_skill_sheet_nt ws_skill0 org role data m with
    | .error e => .error e
    | .ok wsS => .ok (wsT, wsS)

/-- Track-mode task fill loop (src/app.py lines 389-396): rows stop after 14
and shortfall rows are not written at all. -/
def fill_tasks_t : Sheet → Nat → List PyVal → Except String Sheet
  | ws, _, [] => .ok ws
  | ws, row, t :: ts =>
    if row > 14 then .ok ws
    else
      match t.get "task_name" with
      | .error e => .error e
      | .ok nv =>
        match t.get "task_description" with
        | .error e => .error e
        | .ok dv =>
          fill_tasks_t ((ws.set 1 row (pyOr nv (.str ""))).set 3 row (pyOr dv (.str "")))
            (row + 1) ts

/-- `write_task_sheet` (src/app.py lines 382-397). -/
def write_task_sheet (ws : Sheet) (org_name job_name : String) (track_name : PyVal)
    (tasks : List PyVal) : Except String Sheet :=
  fill_tasks_t (((ws.set 2 1 (.str org_name)).set 2 2 (.str job_name)).set 4 1 track_name)
    5 tasks

/-- Track-mode skill row body (src/app.py lines 407-423). -/
def skill_cells_t (track_name : PyVal) (s : PyVal) :
    Except String (String × PyVal × String × String) :=
  match get_skill_related_tasks s with
  | .error e => .error e
  | .ok rel =>
    match bullets_from_related_tasks rel track_name with
    | .error e => .error e
    | .ok a =>
      match get_skill_field s "name", get_skill_field s "definition",
          get_skill_field s "tech_stack" with
      | .ok nv, .ok dv, .ok tv =>
        match bullets_from_tech_stack (pyOr tv (pyD [])) with
        | .error e => .error e
        | .ok f => .ok (a, pyOr nv (.str ""), strip_markers dv, f)
      | _, _, _ => .error "AttributeError: get"

def fill_skills_t (tn : PyVal) : Sheet → Nat → List PyVal → Except String Sheet
  | ws, _, [] => .ok ws
  | ws, row, s :: ss =>
    if row > 11 then .ok ws
    else
      match skill_cells_t tn s with
      | .error e => .error e
      | .ok cells =>
        fill_skills_t tn ((((ws.set 1 row (.str cells.1)).set 2 row cells.2.1).set
          4 row (.str cells.2.2.1)).set 6 row (.str cells.2.2.2)) (row + 1) ss

/-- `write_skill_sheet` (src/app.py lines 399-424). -/
def write_skill_sheet (ws : Sheet) (org_name job_name : String) (track_name : PyVal)
    (skills : List PyVal) : Except String Sheet :=
  fill_skills_t track_name
    (((ws.set 2 1 (.str org_name)).set 2 2 (.str job_name)).set 4 1 track_name) 5 skills

/-! ### Sheet lookup (src/app.py lines 184-185 and 287-289) -/

/-- `wb["Task"] if "Task" in wb.sheetnames else wb[wb.sheetnames[0]]`. -/
def locate_task_name (sheetnames : List String) : Except String String :=
  if sheetnames.contains "Task" then .ok "Task"
  else
    match sheetnames.get? 0 with
    | Option.some n => .ok n
    | Option.none => .error "IndexError"

/-- `wb["Skill"] if "Skill" in wb.sheetnames else wb[wb.sheetnames[1]]`. -/
def locate_skill_name (sheetnames : List String) : Except String String :=
  if sheetnames.contains "Skill" then .ok "Skill"
  else
    match sheetnames.get? 1 with
    | Option.some n => .ok n
    | Option.none => .error "IndexError"

/-- Non Track sheet location: exact name `"Task"`/`"Skill"`, else positional
fallback to the first/second sheet (`IndexError` when out of range). -/
def locate_sheets_nontrack (sheetnames : List String) : Except String (String × String) :=
  match locate_task_name sheetnames, locate_skill_name sheetnames with
  | .ok t, .ok s => .ok (t, s)
  | .error e, _ => .error e
  | .ok _, .error e => .error e

/-- `wb[template_sheet_name]` in `copy_sheet_by_template`: exact,
case-sensitive lookup raising `KeyError`. -/
def copy_sheet_lookup (sheetnames : List String) (name : String) : Except String String :=
  if sheetnames.contains name then .ok name else .error "KeyError"

/-! ### Track resolution and workbook assembly at the sheet-name level
(src/app.py lines 426-465).  Cell writes inside the per-track loop are
modelled by `write_task_sheet`/`write_skill_sheet` above; the name-level
build captures sheet creation and the final removal of the template
sheets. -/

def meta_tracks_go : Nat → List PyVal → Except String (List (Nat × PyVal × PyVal))
  | _, [] => .ok []
  | idx, tr :: rest =>
    match tr.get "track_name", tr.get "track_code" with
    | .ok n, .ok c =>
      (match meta_tracks_go (idx + 1) rest with
       | .error e => .error e
       | .ok tail => .ok ((idx, n, c) :: tail))
    | _, _ => .error "AttributeError: get"

def infer_tracks_go : List PyVal → List (PyVal × PyVal) → Nat →
    Except String (List (Nat × PyVal × PyVal))
  | [], _, _ => .ok []
  | t :: ts, seen, idx =>
    match t.get "track" with
    | .error e => .error e
    | .ok trV =>
      match (pyOr trV (pyD [])).get "name", (pyOr trV (pyD [])).get "code" with
      | .ok tn, .ok tc =>
        if tn.truthy && !(seen.any (fun p => p.1.beq tn && p.2.beq tc)) then
          match infer_tracks_go ts ((tn, tc) :: seen) (idx + 1) with
          | .error e => .error e
          | .ok tail => .ok ((idx, tn, tc) :: tail)
        else infer_tracks_go ts seen idx
      | _, _ => .error "AttributeError: get"

/-- Track list: `meta.tracks` if non-empty, else first-seen distinct
`(name, code)` pairs over tasks with a truthy name. -/
def resolve_tracks (data : PyVal) : Except String (List (Nat × PyVal × PyVal)) :=
  match data.get "meta" with
  | .error e => .error e
  | .ok metaV =>
    match (pyOr metaV (pyD [])).get "tracks" with
    | .error e => .error e
    | .ok mtV =>
      let mt := pyOr mtV (pyL [])
      if mt.truthy then
        match mt.iterate with
        | .error e => .error e
        | .ok items => meta_tracks_go 1 items
      else
        match data.getDefault "tasks" (pyL []) with
        | .error e => .error e
        | .ok tasksV =>
          match tasksV.iterate with
          | .error e => .error e
          | .ok items => infer_tracks_go items [] 1

def build_track_sheetnames_go : List String → List (Nat × PyVal × PyVal) →
    Except String (List String)
  | sheets, [] => .ok sheets
  | sheets, (idx, _, _) :: rest =>
    match copy_sheet_lookup sheets "Task" with
    | .error e => .error e
    | .ok _ =>
      let sheets1 := sheets ++ ["트랙 " ++ toString idx ++ "_Task"]
      match copy_sheet_lookup sheets1 "Skill" with
      | .error e => .error e
      | .ok _ =>
        build_track_sheetnames_go (sheets1 ++ ["트랙 " ++ toString idx ++ "_Skill"]) rest

/-- Sheet-name evolution of `build_workbook_track`: per-track duplication of
the template sheets, then removal of the original `"Task"`/`"Skill"` sheets
(`if base in wb.sheetnames: wb.remove(...)`). -/
def build_track_sheetnames (sheets : List String) (data : PyVal) :
    Except String (List String) :=
  match resolve_tracks data with
  | .error e => .error e
  | .ok tracks =>
    match build_track_sheetnames_go sheets tracks with
    | .error e => .error e
    | .ok sheets2 => .ok ((sheets2.erase "Task").erase "Skill")

/-! ### Pure (specification-side) counterparts and well-formedness

The monadic embeddings above raise wherever Python would.  On inputs whose
relevant pieces are shaped as the data model describes (mappings where
mappings are expected, strings or falsy values where strings are expected)
they agree with the following pure functions; the well-formedness predicates
carve out exactly those inputs. -/

def dGetD (v : PyVal) (key : String) (dflt : PyVal) : PyVal :=
  match v with
  | .dict kvs => (lookupA kvs.toList key).getD dflt
  | _ => dflt

def listOfP : PyVal → List PyVal
  | .list xs => xs.toList
  | _ => []

def dictOrFalsy (v : PyVal) : Bool := !v.truthy || v.isDict

def strOrFalsy (v : PyVal) : Bool := !v.truthy || v.isStr

/-- `(v or "").strip()` on well-shaped input. -/
def pyStripP (v : PyVal) : String :=
  match pyOr v (.str "") with
  | .str s => pyStripS s
  | _ => ""

/-- Pure `get_skill_field`. -/
def skillFieldP (s : PyVal) (key : String) : PyVal :=
  match s with
  | .dict kvs0 =>
    let kvs := kvs0.toList
    match lookupA kvs "skill" with
    | Option.some (.dict inner) => (lookupA inner.toList key).getD .none
    | _ => (lookupA kvs key).getD .none
  | _ => .none

/-- Pure `get_skill_related_tasks`. -/
def related_resolved_p (s : PyVal) : PyVal :=
  match s with
  | .dict kvs0 =>
    let kvs := kvs0.toList
    if hasKey kvs "skill" then
      let a := (lookupA kvs "related_tasks").getD .none
      if a.truthy then a
      else pyOr (dGet ((lookupA kvs "skill").getD .none) "related_tasks") (pyL [])
    else pyOr ((lookupA kvs "related_tasks").getD .none) (pyL [])
  | _ => .none

def related_iter_p (s : PyVal) : PyVal := pyOr (related_resolved_p s) (pyL [])

/-- One related-task reference hitting the target track (spec 4.5). -/
def rt_matches_spec (tn tc : PyVal) (rt : PyVal) : Bool :=
  let trt := pyOr (dGet rt "track") (pyD [])
  (dGet trt "name").beq tn || (dGet trt "code").beq tc

/-- Modelled from the spec's words (spec 4.5 / claim C1): direct match on the
skill's own track name or code, otherwise common scope plus a related-task
reference carrying the target track. -/
def matches_track_spec (tn tc : PyVal) (s : PyVal) : Bool :=
  let tr := pyOr (dGet s "track") (pyD [])
  (dGet tr "name").beq tn || (dGet tr "code").beq tc ||
    ((dGet s "track_scope").beq (.str "common") &&
      (listOfP (related_iter_p s)).any (rt_matches_spec tn tc))

/-- The dedup key: the skill's trimmed name. -/
def name_key_p (s : PyVal) : String := pyStripP (skillFieldP s "name")

/-- Dedup as the code performs it: first occurrence per trimmed name wins,
and blank-named skills are dropped entirely. -/
def dedup_names_spec : List PyVal → List String → List PyVal
  | [], _ => []
  | s :: ss, seen =>
    let nm := name_key_p s
    if nm ≠ "" && !(seen.contains nm) then s :: dedup_names_spec ss (nm :: seen)
    else dedup_names_spec ss seen

/-- The selection pipeline in the amended claim's words: filter by the dual
membership rule, dedup by trimmed name dropping blank names, stable-sort
ascending by rank (missing rank last), truncate. -/
def select_skills_spec (skills : List PyVal) (tn tc : PyVal) (limit : Nat) : List PyVal :=
  (stableSortByLe rankLe
    (dedup_names_spec (skills.filter (matches_track_spec tn tc)) [])).take limit

/-- Modelled from the original claim C1's words: plain deduplication by skill
name (first occurrence wins), with no special treatment of blank names. -/
def dedup_names_claim : List PyVal → List String → List PyVal
  | [], _ => []
  | s :: ss, seen =>
    let nm := name_key_p s
    if !(seen.contains nm) then s :: dedup_names_claim ss (nm :: seen)
    else dedup_names_claim ss seen

def select_skills_claim (skills : List PyVal) (tn tc : PyVal) (limit : Nat) : List PyVal :=
  (stableSortByLe rankLe
    (dedup_names_claim (skills.filter (matches_track_spec tn tc)) [])).take limit

/-- A skill record's `skill` sub-field, when present, is a mapping (the shape
`get_skill_related_tasks` requires to not raise). -/
def skill_sub_dict_ok (s : PyVal) : Bool :=
  match s with
  | .dict kvs =>
    (match lookupA kvs.toList "skill" with
     | Option.some v => v.isDict
     | Option.none => true)
  | _ => false

/-- Well-formed related-task reference for `select_skills_for_track`. -/
def rt_wf (rt : PyVal) : Bool := rt.isDict && dictOrFalsy (dGet rt "track")

/-- Skill-record shapes on which `select_skills_for_track` cannot raise. -/
def skill_wf (s : PyVal) : Bool :=
  s.isDict &&
  dictOrFalsy (dGet s "track") &&
  skill_sub_dict_ok s &&
  strOrFalsy (skillFieldP s "name") &&
  ((skillFieldP s "rank").isNone || (skillFieldP s "rank").isInt) &&
  (related_iter_p s).isList &&
  (listOfP (related_iter_p s)).all rt_wf

/-- Pure task-lookup-map builder (agrees with `build_task_map` when every
task record is a dict). -/
def build_task_map_p : List PyVal → List (String × String) → List (String × String)
  | [], m => m
  | t :: ts, m =>
    let tid := pyStripS (pyStr (pyOr (dGet t "task_id") (.str "")))
    let tname := pyStripS (pyStr (pyOr (dGet t "task_name") (.str "")))
    if tid ≠ "" && tname ≠ "" then build_task_map_p ts ((tid, tname) :: m)
    else build_task_map_p ts m

/-- Pure `resolve_rt_name`. -/
def resolve_rt_name_p (m : List (String × String)) (rt : PyVal) : String :=
  let nm0 := pyStripP (dGet rt "task_name")
  if nm0 = "" then
    let tid := pyStripP (dGet rt "task_id")
    if tid ≠ "" && mapHas m tid then mapGet m tid else ""
  else nm0

/-- Pure `related_task_names_nt`. -/
def related_names_p (m : List (String × String)) : List PyVal → List String
  | [] => []
  | rt :: rest =>
    let nm := resolve_rt_name_p m rt
    let tail := related_names_p m rest
    if nm ≠ "" then nm :: tail else tail

def related_task_names_p (r : PyVal) (m : List (String × String)) : List String :=
  related_names_p m (listOfP (pyOr r (pyL [])))

/-- A related-task reference `related_task_names_nt` tolerates. -/
def rt_nt_wf (rt : PyVal) : Bool :=
  rt.isDict && strOrFalsy (dGet rt "task_name") && strOrFalsy (dGet rt "task_id")

/-- Related-task references on which `related_task_names_nt` cannot raise:
the value iterates as a list of dicts whose `task_name`/`task_id` are strings
or falsy. -/
def relatedWF (r : PyVal) : Bool :=
  (pyOr r (pyL [])).isList &&
  (listOfP (pyOr r (pyL []))).all rt_nt_wf

/-- Pure `iter_skills_nt` item normalization. -/
def iter_skill_item_p (item : PyVal) : PyVal :=
  match item with
  | .dict kvs0 =>
    let kvs := kvs0.toList
    if hasKey kvs "skill" then
      let s := pyOr ((lookupA kvs "skill").getD .none) (pyD [])
      pyD [("name", dGetD s "name" (.str "")),
           ("definition", dGetD s "definition" (.str "")),
           ("tech_stack", dGetD s "tech_stack" (pyD [])),
           ("related_tasks",
            pyOr ((lookupA kvs "related_tasks").getD .none)
              (pyOr (dGet s "related_tasks") (pyL [])))]
    else
      pyD [("name", (lookupA kvs "name").getD (.str "")),
           ("definition", (lookupA kvs "definition").getD (.str "")),
           ("tech_stack", (lookupA kvs "tech_stack").getD (pyD [])),
           ("related_tasks", pyOr ((lookupA kvs "related_tasks").getD .none) (pyL []))]
  | _ =>
    pyD [("name", .str ""), ("definition", .str ""),
         ("tech_stack", pyD []), ("related_tasks", pyL [])]

/-- Raw skill entries on which `iter_skills_nt` cannot raise: a truthy
`skill` sub-value must be a mapping. -/
def nt_item_wf (item : PyVal) : Bool :=
  match item with
  | .dict kvs =>
    match lookupA kvs.toList "skill" with
    | Option.some v => v.isDict || !v.truthy
    | Option.none => true
  | _ => true

/-- Raw skill entries a Non Track skill row can be built from without
raising. -/
def nt_skill_item_wf (item : PyVal) : Bool :=
  nt_item_wf item && relatedWF (dGet (iter_skill_item_p item) "related_tasks")

def nt_task_a_p (t : PyVal) : String := pyStripS (pyStr (pyOr (dGet t "task_name") (.str "")))

def nt_task_c_p (t : PyVal) : String :=
  pyStripS (pyStr (pyOr (dGet t "task_description") (.str "")))

/-- Pure Non Track skill row cells (A, B, D, F). -/
def nt_skill_cells_p (m : List (String × String)) (s : PyVal) :
    String × String × String × String :=
  let rel_names := related_task_names_p (dGet s "related_tasks") m
  (if rel_names.isEmpty then "" else bullet_lines rel_names,
   pyStripS (pyStr (pyOr (dGet s "name") (.str ""))),
   strip_markers (dGet s "definition"),
   extract_tech_lines_nt (dGet s "tech_stack"))

/-- Payload records `build_workbook_nontrack` processes without raising. -/
def data_wf_nt (data : PyVal) : Bool :=
  data.isDict &&
  (pyOr (dGet data "tasks") (pyL [])).isList &&
  (listOfP (pyOr (dGet data "tasks") (pyL []))).all PyVal.isDict &&
  (pyOr (dGet data "skills") (pyL [])).isList &&
  ((listOfP (pyOr (dGet data "skills") (pyL []))).take 8).all nt_skill_item_wf

/-- The task records of a Non Track payload. -/
def nt_tasks_of (data : PyVal) : List PyVal := listOfP (pyOr (dGet data "tasks") (pyL []))

/-- The (at most 7) normalized skills a Non Track workbook renders. -/
def nt_skills_of (data : PyVal) : List PyVal :=
  (((listOfP (pyOr (dGet data "skills") (pyL []))).take 8).map iter_skill_item_p).take 7

def t_task_a_p (t : PyVal) : PyVal := pyOr (dGet t "task_name") (.str "")

def t_task_c_p (t : PyVal) : PyVal := pyOr (dGet t "task_description") (.str "")

/-- Pure `bullets_from_related_tasks`. -/
def bullets_rt_go_p (tn : PyVal) (seen : List PyVal) : List PyVal → List PyVal
  | [] => []
  | rt :: rest =>
    let rtd := pyOr rt (pyD [])
    let tname := dGet rtd "task_name"
    let ttrack := dGet (pyOr (dGet rtd "track") (pyD [])) "name"
    if tname.truthy && ttrack.beq tn && !(seen.any (fun x => x.beq tname)) then
      tname :: bullets_rt_go_p tn (tname :: seen) rest
    else bullets_rt_go_p tn seen rest

def bullets_from_related_tasks_p (r : PyVal) (tn : PyVal) : String :=
  if r.truthy then
    sepJoin "\n" ((bullets_rt_go_p tn [] (listOfP r)).map (fun n => "* " ++ pyStr n))
  else ""

/-- Pure `bullets_from_tech_stack`. -/
def tech_line_p (ts : PyVal) (key : String) : List String :=
  let items := (listify_tech_value (dGet ts key)).filter (fun x => x ≠ "")
  if items.isEmpty then [] else ["* " ++ key ++ ": " ++ sepJoin ", " items]

def bullets_from_tech_stack_p (tech_stack : PyVal) : String :=
  let ts := pyOr tech_stack (pyD [])
  sepJoin "\n" (tech_line_p ts "language" ++ tech_line_p ts "os" ++ tech_line_p ts "tools")

/-- Pure Track skill row cells (A, B, D, F). -/
def skill_cells_t_p (tn : PyVal) (s : PyVal) : String × PyVal × String × String :=
  (bullets_from_related_tasks_p (related_resolved_p s) tn,
   pyOr (skillFieldP s "name") (.str ""),
   strip_markers (skillFieldP s "definition"),
   bullets_from_tech_stack_p (pyOr (skillFieldP s "tech_stack") (pyD [])))

/-- References `bullets_from_related_tasks` tolerates. -/
def rt_wf_bullets (rt : PyVal) : Bool :=
  (rt.isDict || !rt.truthy) && dictOrFalsy (dGet (pyOr rt (pyD [])) "track")

/-- Skill records a Track skill row can be written from without raising. -/
def skill_row_wf_t (s : PyVal) : Bool :=
  s.isDict &&
  skill_sub_dict_ok s &&
  (!(related_resolved_p s).truthy || (related_resolved_p s).isList) &&
  (listOfP (related_resolved_p s)).all rt_wf_bullets &&
  dictOrFalsy (skillFieldP s "tech_stack")

/-- The Non Track skill cell written to column `c` of a data row. -/
def nt_skill_cell_col (m : List (String × String)) (s : PyVal) (c : Nat) : String :=
  if c = 1 then (nt_skill_cells_p m s).1
  else if c = 2 then (nt_skill_cells_p m s).2.1
  else if c = 4 then (nt_skill_cells_p m s).2.2.1
  else (nt_skill_cells_p m s).2.2.2

/-- The Track skill cell written to column `c` of a data row. -/
def t_skill_cell_col (tn s : PyVal) (c : Nat) : PyVal :=
  if c = 1 then .str (skill_cells_t_p tn s).1
  else if c = 2 then (skill_cells_t_p tn s).2.1
  else if c = 4 then .str (skill_cells_t_p tn s).2.2.1
  else .str (skill_cells_t_p tn s).2.2.2

/-- The final Non Track Task sheet, cell by cell: B1/B2 hold the headers,
rows 5-14 of columns A and C hold the first ten tasks, the shortfall rows of
the window are blanked to `""`, and every other cell is the template's. -/
def nt_task_sheet_expected (ws0 : Sheet) (org role : String) (tasks : List PyVal) : Sheet :=
  fun p =>
    if 5 ≤ p.2 ∧ p.2 ≤ 14 ∧ (p.1 = 1 ∨ p.1 = 3) then
      (if p.2 - 5 < (tasks.take 10).length then
        .str (if p.1 = 1 then nt_task_a_p ((tasks.take 10).getD (p.2 - 5) .none)
              else nt_task_c_p ((tasks.take 10).getD (p.2 - 5) .none))
       else .str "")
    else if p = (2, 2) then .str role
    else if p = (2, 1) then .str org
    else ws0 p

/-- The final Non Track Skill sheet, cell by cell: B1/B2 hold the headers,
rows 5-11 of columns A, B, D and F hold the rendered skills, the shortfall
rows of the window are blanked to `""`, and every other cell is the
template's. -/
def nt_skill_sheet_expected (ws0 : Sheet) (org role : String)
    (m : List (String × String)) (skills : List PyVal) : Sheet :=
  fun p =>
    if 5 ≤ p.2 ∧ p.2 ≤ 11 ∧ (p.1 = 1 ∨ p.1 = 2 ∨ p.1 = 4 ∨ p.1 = 6) then
      (if p.2 - 5 < skills.length then
        .str (nt_skill_cell_col m (skills.getD (p.2 - 5) .none) p.1)
       else .str "")
    else if p = (2, 2) then .str role
    else if p = (2, 1) then .str org
    else ws0 p

/-- The final Track task sheet, cell by cell: headers in B1/B2/D1, rows 5-14
of columns A and C hold the given tasks, and every other cell — including the
shortfall rows of the window, which are NOT blanked — keeps the duplicated
template's content. -/
def t_task_sheet_expected (ws : Sheet) (org job : String) (tn : PyVal)
    (tasks : List PyVal) : Sheet :=
  fun p =>
    if 5 ≤ p.2 ∧ p.2 ≤ 14 ∧ p.2 - 5 < tasks.length ∧ (p.1 = 1 ∨ p.1 = 3) then
      (if p.1 = 1 then t_task_a_p (tasks.getD (p.2 - 5) .none)
       else t_task_c_p (tasks.getD (p.2 - 5) .none))
    else if p = (4, 1) then tn
    else if p = (2, 2) then .str job
    else if p = (2, 1) then .str org
    else ws p

/-- The final Track skill sheet, cell by cell: headers in B1/B2/D1, rows 5-11
of columns A, B, D and F hold the rendered skills, and every other cell —
including the shortfall rows of the window, which are NOT blanked — keeps the
duplicated template's content. -/
def t_skill_sheet_expected (ws : Sheet) (org job : String) (tn : PyVal)
    (skills : List PyVal) : Sheet :=
  fun p =>
    if 5 ≤ p.2 ∧ p.2 ≤ 11 ∧ p.2 - 5 < skills.length
        ∧ (p.1 = 1 ∨ p.1 = 2 ∨ p.1 = 4 ∨ p.1 = 6) then
      t_skill_cell_col tn (skills.getD (p.2 - 5) .none) p.1
    else if p = (4, 1) then tn
    else if p = (2, 2) then .str job
    else if p = (2, 1) then .str org
    else ws p


/-! ## Theorems -/

theorem excluded_suffix_len_le (l : List String) :
    excluded_suffix_len_spec l ≤ l.length := by
  induction l with
  | nil => simp [excluded_suffix_len_spec]
  | cons t ts ih =>
    simp only [excluded_suffix_len_spec, List.length_cons]
    split <;> omega

theorem excluded_suffix_len_cons (t : String) (ts : List String) :
    excluded_suffix_len_spec (t :: ts) =
      if excluded_suffix_len_spec ts = ts.length ∧ is_trailing_excluded_nt t
      then excluded_suffix_len_spec ts + 1 else excluded_suffix_len_spec ts := rfl

theorem excluded_suffix_len_append (l : List String) (a : String) :
    excluded_suffix_len_spec (l ++ [a]) =
      if is_trailing_excluded_nt a then excluded_suffix_len_spec l + 1 else 0 := by
  induction l with
  | nil => simp [excluded_suffix_len_spec]
  | cons t ts ih =>
    have hle := excluded_suffix_len_le ts
    rw [List.cons_append, excluded_suffix_len_cons, excluded_suffix_len_cons, ih]
    have hlen : (ts ++ [a]).length = ts.length + 1 := by simp
    rw [hlen]
    by_cases ha : is_trailing_excluded_nt a
    · simp only [ha, if_true]
      have hiff : (excluded_suffix_len_spec ts + 1 = ts.length + 1
            ∧ is_trailing_excluded_nt t = true)
          ↔ (excluded_suffix_len_spec ts = ts.length ∧ is_trailing_excluded_nt t = true) := by
        constructor <;> rintro ⟨h1, h2⟩ <;> exact ⟨by omega, h2⟩
      rw [if_congr hiff rfl rfl]
      split <;> omega
    · simp only [ha, Bool.false_eq_true, if_false]
      have h1 : ¬ ((0 : Nat) = ts.length + 1 ∧ is_trailing_excluded_nt t = true) := by
        rintro ⟨h, _⟩
        omega
      rw [if_neg h1]

theorem rdrop_eq_take_sub (l : List String) :
    (l.reverse.dropWhile is_trailing_excluded_nt).reverse =
      l.take (l.length - excluded_suffix_len_spec l) := by
  induction l using List.reverseRecOn with
  | nil => simp [excluded_suffix_len_spec]
  | append_singleton l a ih =>
    rw [excluded_suffix_len_append]
    have hle := excluded_suffix_len_le l
    have hrev : (l ++ [a]).reverse = a :: l.reverse := by simp
    have hlen : (l ++ [a]).length = l.length + 1 := by simp
    by_cases ha : is_trailing_excluded_nt a
    · rw [if_pos ha, hrev, List.dropWhile_cons, if_pos ha, ih, hlen]
      have harith : l.length + 1 - (excluded_suffix_len_spec l + 1)
          = l.length - excluded_suffix_len_spec l := by omega
      rw [harith, List.take_append_of_le_length (by omega)]
    · rw [if_neg ha, hrev, List.dropWhile_cons, if_neg ha, List.reverse_cons,
        List.reverse_reverse, Nat.sub_zero, List.take_length]

theorem role_tokens_eq (rest : List String) :
    (if ((rest.reverse.dropWhile is_trailing_excluded_nt).reverse).isEmpty then rest
     else (rest.reverse.dropWhile is_trailing_excluded_nt).reverse)
    = (if excluded_suffix_len_spec rest = rest.length then rest
       else rest.take (rest.length - excluded_suffix_len_spec rest)) := by
  have hle := excluded_suffix_len_le rest
  rw [rdrop_eq_take_sub]
  by_cases hk : excluded_suffix_len_spec rest = rest.length
  · rw [if_pos hk]
    have hemp : (rest.take (rest.length - excluded_suffix_len_spec rest)).isEmpty = true := by
      rw [hk]
      simp
    rw [if_pos hemp]
  · rw [if_neg hk]
    have hne : ¬ ((rest.take (rest.length - excluded_suffix_len_spec rest)).isEmpty = true) := by
      intro h
      rw [List.isEmpty_iff] at h
      rcases List.take_eq_nil_iff.mp h with h1 | h1
      · omega
      · apply hk
        subst h1
        simp [excluded_suffix_len_spec]
    rw [if_neg hne]

theorem title_tokens_ne_empty (stem : String) :
    ∀ tok ∈ title_tokens_nt stem, tok ≠ "" := by
  intro tok htok
  have := List.of_mem_filter htok
  simpa using this

theorem joinSp_ne_empty (l : List String) (hne : l ≠ []) (hall : ∀ tok ∈ l, tok ≠ "") :
    joinSp l ≠ "" := by
  cases l with
  | nil => exact absurd rfl hne
  | cons t ts =>
    cases ts with
    | nil => exact hall t (by simp)
    | cons t2 ts2 =>
      intro h
      have hlen : (joinSp (t :: t2 :: ts2)).length = 0 := by rw [h]; rfl
      have heq : joinSp (t :: t2 :: ts2) = t ++ " " ++ joinSp (t2 :: ts2) := rfl
      rw [heq] at hlen
      simp only [String.length_append] at hlen
      have hsp : (" " : String).length = 1 := rfl
      omega

/-- C4: the Non Track filename rule.  The source parser agrees everywhere
with the specification-side formulation (drop the maximal excluded suffix of
the non-organization tokens, falling back to all of them when that suffix is
everything); the role is non-empty whenever at least one non-organization
token exists; and the spec's worked example holds. -/
theorem claim_C4 :
    (∀ stem, parse_org_role_from_filename_nt stem = parse_org_role_spec stem)
    ∧ (∀ stem org rest, title_tokens_nt stem = org :: rest → rest ≠ [] →
        (parse_org_role_from_filename_nt stem).2.1 ≠ "")
    ∧ parse_org_role_from_filename_nt "Acme_Data_Engineer_Skill"
        = ("Acme", "Data Engineer", "Data Engineer") := by
  refine ⟨?_, ?_, by decide⟩
  · intro stem
    unfold parse_org_role_from_filename_nt parse_org_role_spec
    cases title_tokens_nt stem with
    | nil => rfl
    | cons org rest =>
      simp only [role_tokens_eq]
  · intro stem org rest htoks hne
    unfold parse_org_role_from_filename_nt
    rw [htoks]
    simp only
    set kept := (rest.reverse.dropWhile is_trailing_excluded_nt).reverse with hkeptdef
    by_cases hk : kept.isEmpty = true
    · rw [if_pos hk]
      refine joinSp_ne_empty rest hne ?_
      intro tok htok
      exact title_tokens_ne_empty stem tok (htoks ▸ List.mem_cons_of_mem org htok)
    · rw [if_neg hk]
      have hkne : kept ≠ [] := by
        intro h
        rw [h] at hk
        exact hk rfl
      refine joinSp_ne_empty kept hkne ?_
      intro tok htok
      have hsub : kept ⊆ rest := by
        rw [hkeptdef, rdrop_eq_take_sub]
        exact List.take_subset _ _
      exact title_tokens_ne_empty stem tok (htoks ▸ List.mem_cons_of_mem org (hsub htok))

/-- Witness for C4 at a concrete stem with non-organization tokens. -/
theorem claim_C4_witness :
    title_tokens_nt "Acme_Data_Engineer_Skill" = "Acme" :: ["Data", "Engineer", "Skill"]
    ∧ (parse_org_role_from_filename_nt "Acme_Data_Engineer_Skill").2.1 ≠ "" := by
  refine ⟨by decide, claim_C4.2.1 "Acme_Data_Engineer_Skill" "Acme" ["Data", "Engineer", "Skill"]
    (by decide) (by decide)⟩

theorem tryCite_eq_none (cs : List Char) (h : '[' ∉ cs) : tryCite cs = Option.none := by
  unfold tryCite
  cases hd : cs.dropWhile isSpaceC with
  | nil => rfl
  | cons c s2 =>
    have hmem : c ∈ cs := by
      have hm : c ∈ cs.dropWhile isSpaceC := by
        rw [hd]
        exact List.mem_cons_self _ _
      exact (List.dropWhile_sublist _).subset hm
    have hc : ¬ (c = '[') := by
      intro hc
      subst hc
      exact h hmem
    exact if_neg hc

theorem trySource_eq_none (cs : List Char) (h : '(' ∉ cs) : trySource cs = Option.none := by
  unfold trySource
  cases hd : cs.dropWhile isSpaceC with
  | nil => rfl
  | cons c s2 =>
    have hmem : c ∈ cs := by
      have hm : c ∈ cs.dropWhile isSpaceC := by
        rw [hd]
        exact List.mem_cons_self _ _
      exact (List.dropWhile_sublist _).subset hm
    have hc : ¬ (c = '(') := by
      intro hc
      subst hc
      exact h hmem
    exact if_neg hc

theorem subCiteF_id (fuel : Nat) (cs : List Char) (h : '[' ∉ cs) : subCiteF fuel cs = cs := by
  induction fuel generalizing cs with
  | zero => rfl
  | succ n ih =>
    cases cs with
    | nil => rfl
    | cons c rest =>
      have hnone := tryCite_eq_none (c :: rest) h
      have ihr : subCiteF n rest = rest := ih rest (fun hm => h (List.mem_cons_of_mem c hm))
      simp only [subCiteF, hnone, ihr]

theorem subSourceF_id (fuel : Nat) (cs : List Char) (h : '(' ∉ cs) :
    subSourceF fuel cs = cs := by
  induction fuel generalizing cs with
  | zero => rfl
  | succ n ih =>
    cases cs with
    | nil => rfl
    | cons c rest =>
      have hnone := trySource_eq_none (c :: rest) h
      have ihr : subSourceF n rest = rest := ih rest (fun hm => h (List.mem_cons_of_mem c hm))
      simp only [subSourceF, hnone, ihr]

theorem count_nl_cons (c : Char) (l : List Char) :
    List.count '\n' (c :: l) = List.count '\n' l + (if c = '\n' then 1 else 0) := by
  rw [List.count_cons]
  congr 1
  by_cases hc : c = '\n' <;> simp [hc]

theorem isHT_ne_nl (c : Char) (h : isHT c = true) : ¬ (c = '\n') := by
  intro he
  subst he
  exact absurd h (by decide)

theorem collapseHT_newlines :
    ∀ cs : List Char, List.count '\n' (collapseHT cs) = List.count '\n' cs
  | [] => by simp [collapseHT]
  | [c] => by
    by_cases hc : isHT c
    · rw [show collapseHT [c] = [' '] by simp [collapseHT, hc]]
      rw [count_nl_cons, count_nl_cons]
      have h1 : ¬ (' ' = '\n') := by decide
      have h2 := isHT_ne_nl c hc
      simp [h1, h2]
    · rw [show collapseHT [c] = [c] by simp [collapseHT, hc]]
  | c1 :: c2 :: rest => by
    have ih := collapseHT_newlines (c2 :: rest)
    by_cases h12 : (isHT c1 && isHT c2) = true
    · rw [show collapseHT (c1 :: c2 :: rest) = collapseHT (c2 :: rest) by
        rw [collapseHT, if_pos h12]]
      rw [ih, count_nl_cons c1]
      have h2 := isHT_ne_nl c1 (Bool.and_elim_left h12)
      simp [h2]
    · rw [show collapseHT (c1 :: c2 :: rest) =
          (if isHT c1 then ' ' else c1) :: collapseHT (c2 :: rest) by
        rw [collapseHT, if_neg h12]]
      rw [count_nl_cons (if isHT c1 then ' ' else c1) (collapseHT (c2 :: rest)), ih,
        count_nl_cons c1 (c2 :: rest)]
      congr 1
      by_cases h1 : isHT c1
      · have h2 := isHT_ne_nl c1 h1
        have h3 : ¬ (' ' = '\n') := by decide
        simp [h1, h2, h3]
      · simp [h1]

/-- C8: marker stripping.  The spec's worked example holds; on text containing
no `[` and no `(` (hence no possible marker match) `strip_markers` is exactly
"collapse horizontal whitespace, then trim the ends", and the collapsing step
never changes the number of newline characters, so embedded newlines outside
matched spans survive. -/
theorem claim_C8 :
    strip_markers_str "Builds APIs [cite: 12, doc.pdf] using REST (Source: handbook p.4)"
      = "Builds APIs using REST"
    ∧ (∀ s : String, '[' ∉ s.data → '(' ∉ s.data →
        strip_markers_str s = String.mk (stripChars (collapseHT s.data)))
    ∧ (∀ cs : List Char, List.count '\n' (collapseHT cs) = List.count '\n' cs) := by
  refine ⟨by decide, ?_, collapseHT_newlines⟩
  intro s h1 h2
  unfold strip_markers_str subCite subSource
  rw [subCiteF_id _ _ h1, subSourceF_id _ _ h2]

/-- Witness for C8 on a concrete marker-free multi-line string. -/
theorem claim_C8_witness :
    strip_markers_str "line one\nline  two"
      = String.mk (stripChars (collapseHT "line one\nline  two".data)) :=
  claim_C8.2.1 "line one\nline  two" (by decide) (by decide)

/-- C7 counterexample: the claim says both modes look tech-stack keys up
case-insensitively across synonyms, but the Track-mode renderer
(`bullets_from_tech_stack`) only reads the exact keys `language`/`os`/`tools`:
on `\x7b"languages": ["Python"]\x7d` the Non Track renderer produces the
language line while the Track renderer produces the empty string. -/
theorem claim_C7_counterexample :
    bullets_from_tech_stack (pyD [("languages", pyL [.str "Python"])]) = .ok ""
    ∧ extract_tech_lines_nt (pyD [("languages", pyL [.str "Python"])])
        = "* language: Python"
    ∧ ("" : String) ≠ "* language: Python" := ⟨rfl, rfl, by decide⟩

theorem pyDict_toList_ofList : ∀ l : List (String × PyVal), (PyDict.ofList l).toList = l
  | [] => rfl
  | (k, v) :: kvs => by
    rw [PyDict.ofList, PyDict.toList, pyDict_toList_ofList kvs]

theorem pyList_toList_ofList : ∀ l : List PyVal, (PyList.ofList l).toList = l
  | [] => rfl
  | x :: xs => by
    rw [PyList.ofList, PyList.toList, pyList_toList_ofList xs]

theorem extract_tech_congr (kvs1 kvs2 : List (String × PyVal))
    (hL : pyOr (lowerMapLookup kvs1 "language") (lowerMapLookup kvs1 "languages")
        = pyOr (lowerMapLookup kvs2 "language") (lowerMapLookup kvs2 "languages"))
    (hO : pyOr (lowerMapLookup kvs1 "os")
          (pyOr (lowerMapLookup kvs1 "platform") (lowerMapLookup kvs1 "operating_system"))
        = pyOr (lowerMapLookup kvs2 "os")
          (pyOr (lowerMapLookup kvs2 "platform") (lowerMapLookup kvs2 "operating_system")))
    (hT : pyOr (lowerMapLookup kvs1 "tools") (lowerMapLookup kvs1 "tool")
        = pyOr (lowerMapLookup kvs2 "tools") (lowerMapLookup kvs2 "tool")) :
    extract_tech_lines_nt (pyD kvs1) = extract_tech_lines_nt (pyD kvs2) := by
  unfold extract_tech_lines_nt
  simp only [pyD]
  rw [pyDict_toList_ofList, pyDict_toList_ofList, hL, hO, hT]

theorem pyOr_truthy (v w : PyVal) (hv : v.truthy = true) : pyOr v w = v := by
  unfold pyOr
  rw [hv]
  rfl

/-- C7 (amended): the Non Track renderer `extract_tech_lines_nt` looks keys
up case-insensitively across the synonyms (`language`/`languages`,
`os`/`platform`/`operating_system`, `tools`/`tool`) and renders the fixed
language/os/tools order, and the spec's example holds in both modes; the
Track renderer `bullets_from_tech_stack` reads only the exact lower-case
keys `language`/`os`/`tools`, ignoring synonyms and differently-cased keys. -/
theorem claim_C7 :
    extract_tech_lines_nt
        (pyD [("language", pyL [.str "Python", .str "Go"]), ("os", .str "Linux"),
              ("tools", .none)])
      = "* language: Python, Go\n* os: Linux"
    ∧ bullets_from_tech_stack
        (pyD [("language", pyL [.str "Python", .str "Go"]), ("os", .str "Linux"),
              ("tools", .none)])
      = .ok "* language: Python, Go\n* os: Linux"
    ∧ (∀ v : PyVal, extract_tech_lines_nt (pyD [("Language", v)])
        = extract_tech_lines_nt (pyD [("language", v)]))
    ∧ (∀ v : PyVal, v.truthy = true → extract_tech_lines_nt (pyD [("languages", v)])
        = extract_tech_lines_nt (pyD [("language", v)]))
    ∧ (∀ v : PyVal, v.truthy = true → extract_tech_lines_nt (pyD [("platform", v)])
        = extract_tech_lines_nt (pyD [("os", v)]))
    ∧ (∀ v : PyVal, v.truthy = true → extract_tech_lines_nt (pyD [("operating_system", v)])
        = extract_tech_lines_nt (pyD [("os", v)]))
    ∧ (∀ v : PyVal, v.truthy = true → extract_tech_lines_nt (pyD [("tool", v)])
        = extract_tech_lines_nt (pyD [("tools", v)]))
    ∧ (∀ v : PyVal, bullets_from_tech_stack (pyD [("languages", v)]) = .ok "")
    ∧ (∀ v : PyVal, bullets_from_tech_stack (pyD [("Language", v)]) = .ok "") := by
  refine ⟨rfl, rfl, fun v => rfl, ?_, ?_, ?_, ?_, fun v => rfl, fun v => rfl⟩
  · intro v hv
    refine extract_tech_congr _ _ ?_ rfl rfl
    show pyOr PyVal.none v = pyOr v PyVal.none
    rw [pyOr_truthy v _ hv]
    rfl
  · intro v hv
    refine extract_tech_congr _ _ rfl ?_ rfl
    show pyOr PyVal.none (pyOr v PyVal.none) = pyOr v (pyOr PyVal.none PyVal.none)
    have h1 : pyOr PyVal.none (pyOr v PyVal.none) = pyOr v PyVal.none := rfl
    rw [h1, pyOr_truthy v _ hv, pyOr_truthy v _ hv]
  · intro v hv
    refine extract_tech_congr _ _ rfl ?_ rfl
    show pyOr PyVal.none (pyOr PyVal.none v) = pyOr v (pyOr PyVal.none PyVal.none)
    rw [pyOr_truthy v _ hv]
    rfl
  · intro v hv
    refine extract_tech_congr _ _ rfl rfl ?_
    show pyOr PyVal.none v = pyOr v PyVal.none
    rw [pyOr_truthy v _ hv]
    rfl

/-- Witness for C7's hypothesis-bearing synonym conjunct at a concrete
truthy value. -/
theorem claim_C7_witness :
    (pyL [PyVal.str "Python"]).truthy = true
    ∧ extract_tech_lines_nt (pyD [("languages", pyL [.str "Python"])])
        = extract_tech_lines_nt (pyD [("language", pyL [.str "Python"])]) :=
  ⟨by decide, claim_C7.2.2.2.1 (pyL [.str "Python"]) (by decide)⟩

/-- C6: the payload loader.  The spec's prose-wrapped example parses; whenever
the direct parse of the BOM-stripped text succeeds its record is returned;
the loader fails exactly when the direct parse fails and additionally the
first-`\x7b`-to-last-`\x7d` substring is absent or fails to parse; and a
byte-order-mark prefix is transparently stripped. -/
theorem claim_C6 :
    load_json_from_txt_bytes "Here is the result:\n\x7b\"tasks\":[]\x7d\nEnd."
      = .ok (pyD [("tasks", pyL [])])
    ∧ (∀ (s : String) (v : PyVal), json_loads_chars (stripBom s.data) = .ok v →
        load_json_from_txt_bytes s = .ok v)
    ∧ (∀ s : String, exceptIsOk (load_json_from_txt_bytes s) = false ↔
        (exceptIsOk (json_loads_chars (stripBom s.data)) = false ∧
          ∀ sub ∈ brace_slice (stripBom s.data), exceptIsOk (json_loads_chars sub) = false))
    ∧ (∀ cs : List Char, cs.head? ≠ Option.some '﻿' →
        load_json_from_txt_bytes (String.mk ('﻿' :: cs))
          = load_json_from_txt_bytes (String.mk cs)) := by
  refine ⟨rfl, ?_, ?_, ?_⟩
  · intro s v h
    unfold load_json_from_txt_bytes
    simp only [h]
  · intro s
    unfold load_json_from_txt_bytes
    cases hj : json_loads_chars (stripBom s.data) with
    | ok v => simp [hj, exceptIsOk]
    | error e =>
      cases hb : brace_slice (stripBom s.data) with
      | none => simp [hj, hb, exceptIsOk]
      | some sub =>
        cases hs : json_loads_chars sub with
        | ok v => simp [hj, hb, hs, exceptIsOk]
        | error e2 => simp [hj, hb, hs, exceptIsOk]
  · intro cs h
    have h1 : stripBom (String.mk ('﻿' :: cs)).data = cs := by
      show stripBom ('﻿' :: cs) = cs
      unfold stripBom
      exact if_pos rfl
    have h2 : stripBom (String.mk cs).data = cs := by
      show stripBom cs = cs
      cases cs with
      | nil => rfl
      | cons c rest =>
        unfold stripBom
        have hc : ¬ (c = '﻿') := by
          intro he
          exact h (by rw [he]; rfl)
        exact if_neg hc
    unfold load_json_from_txt_bytes
    rw [h1, h2]

/-- Witness for C6: a concrete direct parse and a concrete BOM strip. -/
theorem claim_C6_witness :
    load_json_from_txt_bytes "\x7b\"a\": 1\x7d" = .ok (pyD [("a", .int 1)])
    ∧ load_json_from_txt_bytes (String.mk ('﻿' :: "\x7b\x7d".data))
        = load_json_from_txt_bytes (String.mk "\x7b\x7d".data) :=
  ⟨claim_C6.2.1 "\x7b\"a\": 1\x7d" (pyD [("a", .int 1)]) rfl,
   claim_C6.2.2.2 "\x7b\x7d".data (by decide)⟩

/-- C5 counterexample: the claim says both modes locate the template sheets
case-insensitively and fail hard when they cannot be found.  In fact the
Non Track builder silently falls back to the first/second sheet (here
`"Summary"`/`"Notes"`, neither of which is a Task/Skill sheet under any
casing), and the Track builder's exact lookup raises `KeyError` on a
workbook whose sheets are named `"task"`/`"skill"` even though a
case-insensitive lookup would have found them. -/
theorem claim_C5_counterexample :
    locate_sheets_nontrack ["Summary", "Notes"] = .ok ("Summary", "Notes")
    ∧ copy_sheet_lookup ["task", "skill"] "Task" = .error "KeyError"
    ∧ lowerStr "task" = lowerStr "Task" := ⟨rfl, rfl, by decide⟩

/-- C5 (amended): sheet lookup as the code performs it.  Non Track: exact
lookup with positional fallback — `"Task"`/`"Skill"` are used when present
under exactly those names, otherwise the first/second sheet stands in, and
the lookup never fails on a workbook with at least two sheets.  Track:
`copy_sheet_by_template` succeeds exactly on an exact, case-sensitive name
match (raising `KeyError` otherwise); no case-insensitive lookup and no
`TemplateError` exist anywhere. -/
theorem claim_C5 :
    (∀ names : List String, names.contains "Task" = true →
      locate_task_name names = .ok "Task")
    ∧ (∀ names : List String, names.contains "Skill" = true →
      locate_skill_name names = .ok "Skill")
    ∧ (∀ (names : List String) (n : String), names.contains "Task" = false →
      names.get? 0 = Option.some n → locate_task_name names = .ok n)
    ∧ (∀ (names : List String) (n : String), names.contains "Skill" = false →
      names.get? 1 = Option.some n → locate_skill_name names = .ok n)
    ∧ (∀ names : List String, 2 ≤ names.length →
      ∃ out, locate_sheets_nontrack names = .ok out)
    ∧ (∀ (names : List String) (nm : String),
      copy_sheet_lookup names nm = .ok nm ↔ names.contains nm = true) := by
  refine ⟨?_, ?_, ?_, ?_, ?_, ?_⟩
  · intro names h
    unfold locate_task_name
    rw [if_pos h]
  · intro names h
    unfold locate_skill_name
    rw [if_pos h]
  · intro names n h hg
    unfold locate_task_name
    rw [if_neg (fun hc => Bool.noConfusion (h ▸ hc)), hg]
  · intro names n h hg
    unfold locate_skill_name
    rw [if_neg (fun hc => Bool.noConfusion (h ▸ hc)), hg]
  · intro names hlen
    match names, hlen with
    | n0 :: n1 :: rest, _ =>
      have h0 : (n0 :: n1 :: rest).get? 0 = Option.some n0 := rfl
      have h1 : (n0 :: n1 :: rest).get? 1 = Option.some n1 := rfl
      unfold locate_sheets_nontrack locate_task_name locate_skill_name
      by_cases ht : (n0 :: n1 :: rest).contains "Task"
      · by_cases hs : (n0 :: n1 :: rest).contains "Skill"
        · rw [if_pos ht, if_pos hs]
          exact ⟨("Task", "Skill"), rfl⟩
        · rw [if_pos ht, if_neg hs, h1]
          exact ⟨("Task", n1), rfl⟩
      · by_cases hs : (n0 :: n1 :: rest).contains "Skill"
        · rw [if_neg ht, if_pos hs, h0]
          exact ⟨(n0, "Skill"), rfl⟩
        · rw [if_neg ht, if_neg hs, h0, h1]
          exact ⟨(n0, n1), rfl⟩
  · intro names nm
    unfold copy_sheet_lookup
    by_cases h : names.contains nm
    · simp [h]
    · simp [h]

/-- Witness for C5 at concrete sheet-name lists. -/
theorem claim_C5_witness :
    locate_task_name ["Intro", "Task", "Skill"] = .ok "Task"
    ∧ (∃ out, locate_sheets_nontrack ["A", "B"] = .ok out)
    ∧ (copy_sheet_lookup ["Task"] "Task" = .ok "Task" ↔
        (["Task"] : List String).contains "Task" = true) :=
  ⟨claim_C5.1 ["Intro", "Task", "Skill"] (by decide),
   claim_C5.2.2.2.2.1 ["A", "B"] (by decide),
   claim_C5.2.2.2.2.2 ["Task"] "Task"⟩

/-- C10: when zero tracks resolve, `build_workbook_track` creates no
per-track sheets but still removes the original template `"Task"` and
`"Skill"` sheets, leaving exactly the other pre-existing sheets. -/
theorem claim_C10 :
    ∀ (sheets : List String) (data : PyVal), resolve_tracks data = .ok [] →
      build_track_sheetnames sheets data = .ok ((sheets.erase "Task").erase "Skill") := by
  intro sheets data h
  unfold build_track_sheetnames
  rw [h]
  rfl

/-- Witness for C10: a record with no tracks against a template whose sheets
are `Task`, `Skill` and a description sheet. -/
theorem claim_C10_witness :
    build_track_sheetnames ["Task", "Skill", "설명"] (pyD [])
      = .ok ((["Task", "Skill", "설명"].erase "Task").erase "Skill") :=
  claim_C10 ["Task", "Skill", "설명"] (pyD []) rfl

theorem mem_insertByLe (le : PyVal → PyVal → Bool) (x y : PyVal) :
    ∀ l : List PyVal, y ∈ insertByLe le x l → y = x ∨ y ∈ l := by
  intro l
  induction l with
  | nil =>
    intro h
    unfold insertByLe at h
    rcases List.mem_singleton.mp h with rfl
    exact Or.inl rfl
  | cons z zs ih =>
    intro h
    unfold insertByLe at h
    by_cases hc : le x z
    · rw [if_pos hc] at h
      rcases List.mem_cons.mp h with rfl | h2
      · exact Or.inl rfl
      · exact Or.inr h2
    · rw [if_neg hc] at h
      rcases List.mem_cons.mp h with rfl | h2
      · exact Or.inr (List.mem_cons_self _ _)
      · rcases ih h2 with h3 | h3
        · exact Or.inl h3
        · exact Or.inr (List.mem_cons_of_mem _ h3)

theorem mem_stableSortByLe (le : PyVal → PyVal → Bool) (y : PyVal) :
    ∀ l : List PyVal, y ∈ stableSortByLe le l → y ∈ l := by
  intro l
  induction l with
  | nil => intro h; exact absurd h (by simp [stableSortByLe])
  | cons z zs ih =>
    intro h
    unfold stableSortByLe at h
    rcases mem_insertByLe le z y _ h with rfl | h2
    · exact List.mem_cons_self _ _
    · exact List.mem_cons_of_mem _ (ih h2)

theorem dedup_names_ok_names : ∀ (l : List PyVal) (seen : List String) (u : List PyVal),
    dedup_names l seen = .ok u → ∀ e ∈ u, ∃ nm, skill_dedup_name e = .ok nm ∧ nm ≠ "" := by
  intro l
  induction l with
  | nil =>
    intro seen u h e he
    injection h with h2
    subst h2
    cases he
  | cons s ss ih =>
    intro seen u h e he
    unfold dedup_names at h
    split at h
    next er hsn => cases h
    next nm hsn =>
      split at h
      next hc =>
        split at h
        next er hrec => cases h
        next rest hrec =>
          injection h with h2
          subst h2
          rcases List.mem_cons.mp he with rfl | hmem
          · refine ⟨nm, hsn, ?_⟩
            have h3 := (Bool.and_eq_true_iff.mp hc).1
            exact of_decide_eq_true h3
          · exact ih (nm :: seen) rest hrec e hmem
      next hc => exact ih seen u h e he

/-- C9: any skill that survives `select_skills_for_track` has a name that
strips to a non-empty string — a matching skill whose name is absent, empty
or whitespace-only never appears in the output (the dedup step drops it
rather than keeping one representative). -/
theorem claim_C9 :
    ∀ (skills : List PyVal) (tn tc : PyVal) (limit : Nat) (out : List PyVal),
      select_skills_for_track skills tn tc limit = .ok out →
      ∀ e ∈ out, ∃ nm, skill_dedup_name e = .ok nm ∧ nm ≠ "" := by
  intro skills tn tc limit out h e he
  unfold select_skills_for_track at h
  split at h
  next er hm => cases h
  next matched hm =>
    split at h
    next er hd => cases h
    next uniq hd =>
      injection h with h2
      subst h2
      exact dedup_names_ok_names matched [] uniq hd e
        (mem_stableSortByLe rankLe e uniq (List.mem_of_mem_take he))

/-- Witness for C9: a track with one named and one nameless matching skill;
the selection keeps only the named one, and the theorem yields its
non-blank name. -/
theorem claim_C9_witness :
    select_skills_for_track
        [pyD [("name", .str "A"), ("track", pyD [("name", .str "T")])],
         pyD [("track", pyD [("name", .str "T")])]]
        (.str "T") .none 7
      = .ok [pyD [("name", .str "A"), ("track", pyD [("name", .str "T")])]]
    ∧ ∃ nm, skill_dedup_name (pyD [("name", .str "A"), ("track", pyD [("name", .str "T")])])
        = .ok nm ∧ nm ≠ "" :=
  ⟨rfl,
   claim_C9 [pyD [("name", .str "A"), ("track", pyD [("name", .str "T")])],
             pyD [("track", pyD [("name", .str "T")])]]
     (.str "T") .none 7
     [pyD [("name", .str "A"), ("track", pyD [("name", .str "T")])]] rfl
     (pyD [("name", .str "A"), ("track", pyD [("name", .str "T")])])
     (List.mem_cons_self _ _)⟩

theorem get_dict (s : PyVal) (k : String) (h : s.isDict = true) :
    s.get k = .ok (dGet s k) := by
  cases s <;> first | rfl | exact Bool.noConfusion h

theorem getDefault_dict (s : PyVal) (k : String) (d : PyVal) (h : s.isDict = true) :
    s.getDefault k d = .ok (dGetD s k d) := by
  cases s <;> first | rfl | exact Bool.noConfusion h

theorem iterate_list (v : PyVal) (h : v.isList = true) : v.iterate = .ok (listOfP v) := by
  cases v <;> first | rfl | exact Bool.noConfusion h

theorem pyOr_falsy (v w : PyVal) (h : ¬ (v.truthy = true)) : pyOr v w = w := by
  unfold pyOr
  rw [if_neg h]

theorem pyOr_pyOr (a b : PyVal) : pyOr (pyOr a b) b = pyOr a b := by
  by_cases ha : a.truthy = true
  · rw [pyOr_truthy a b ha, pyOr_truthy a b ha]
  · rw [pyOr_falsy a b ha]
    by_cases hb : b.truthy = true
    · rw [pyOr_truthy b b hb]
    · rw [pyOr_falsy b b hb]

theorem pyOr_dict_isDict (v : PyVal) (h : dictOrFalsy v = true) :
    (pyOr v (pyD [])).isDict = true := by
  by_cases hv : v.truthy = true
  · rw [pyOr_truthy v _ hv]
    unfold dictOrFalsy at h
    rcases Bool.or_eq_true_iff.mp h with h2 | h2
    · rw [Bool.not_eq_true'] at h2
      rw [hv] at h2
      cases h2
    · exact h2
  · rw [pyOr_falsy v _ hv]
    rfl

theorem skill_wf_parts (s : PyVal) (h : skill_wf s = true) :
    s.isDict = true
    ∧ dictOrFalsy (dGet s "track") = true
    ∧ skill_sub_dict_ok s = true
    ∧ strOrFalsy (skillFieldP s "name") = true
    ∧ ((skillFieldP s "rank").isNone || (skillFieldP s "rank").isInt) = true
    ∧ (related_iter_p s).isList = true
    ∧ (listOfP (related_iter_p s)).all rt_wf = true := by
  unfold skill_wf at h
  simp only [Bool.and_eq_true] at h
  exact ⟨h.1.1.1.1.1.1, h.1.1.1.1.1.2, h.1.1.1.1.2, h.1.1.1.2, h.1.1.2, h.1.2, h.2⟩

theorem get_skill_related_eq (s : PyVal) (hd : s.isDict = true)
    (hsk : skill_sub_dict_ok s = true) :
    get_skill_related_tasks s = .ok (related_resolved_p s) := by
  cases s with
  | dict kvs0 =>
    unfold get_skill_related_tasks related_resolved_p
    by_cases hk : hasKey kvs0.toList "skill" = true
    · simp only [hk, if_true]
      by_cases ha : ((lookupA kvs0.toList "related_tasks").getD .none).truthy = true
      · simp only [ha, if_true]
      · simp only [ha, Bool.false_eq_true, if_false]
        cases hlv : lookupA kvs0.toList "skill" with
        | none =>
          unfold hasKey at hk
          rw [hlv] at hk
          cases hk
        | some v =>
          simp only [skill_sub_dict_ok, hlv] at hsk
          show (match v.get "related_tasks" with
            | Except.error e => Except.error e
            | Except.ok b => Except.ok (pyOr b (pyL [])))
            = Except.ok (pyOr (dGet v "related_tasks") (pyL []))
          rw [get_dict v "related_tasks" hsk]
    · simp only [hk, Bool.false_eq_true, if_false]
  | none => exact Bool.noConfusion hd
  | bool b => exact Bool.noConfusion hd
  | int n => exact Bool.noConfusion hd
  | str st => exact Bool.noConfusion hd
  | list xs => exact Bool.noConfusion hd

theorem anyRtMatches_eq (tn tc : PyVal) : ∀ rts : List PyVal,
    (∀ rt ∈ rts, rt_wf rt = true) →
    anyRtMatches tn tc rts = .ok (rts.any (rt_matches_spec tn tc)) := by
  intro rts
  induction rts with
  | nil => intro _; rfl
  | cons rt rest ih =>
    intro hwf
    obtain ⟨hdict, htr⟩ := Bool.and_eq_true_iff.mp (hwf rt (List.mem_cons_self _ _))
    unfold anyRtMatches
    rw [get_dict rt "track" hdict]
    simp only
    rw [get_dict _ "name" (pyOr_dict_isDict _ htr)]
    simp only
    unfold rt_matches_spec
    by_cases hn : (dGet (pyOr (dGet rt "track") (pyD [])) "name").beq tn = true
    · simp [hn]
    · simp only [hn, if_false, Bool.false_eq_true]
      rw [get_dict _ "code" (pyOr_dict_isDict _ htr)]
      simp only
      by_cases hc : (dGet (pyOr (dGet rt "track") (pyD [])) "code").beq tc = true
      · simp [hn, hc]
      · simp only [hc, if_false, Bool.false_eq_true]
        rw [ih (fun r hr => hwf r (List.mem_cons_of_mem rt hr))]
        simp only [List.any_cons, hn, hc, Bool.false_or]
        rfl

theorem get_skill_track_eq (s : PyVal) (hd : s.isDict = true) :
    get_skill_track s = .ok (pyOr (dGet s "track") (pyD [])) := by
  unfold get_skill_track
  rw [get_dict s "track" hd]

theorem skill_matched_eq (tn tc s : PyVal) (hwf : skill_wf s = true) :
    skill_matched tn tc s = .ok (matches_track_spec tn tc s) := by
  obtain ⟨hd, htr, hsk, -, -, hrl, hrw⟩ := skill_wf_parts s hwf
  unfold skill_matched
  rw [get_skill_track_eq s hd]
  simp only
  rw [pyOr_pyOr]
  rw [get_dict s "track_scope" hd]
  simp only
  rw [get_dict _ "name" (pyOr_dict_isDict _ htr)]
  simp only
  unfold matches_track_spec
  by_cases hn : (dGet (pyOr (dGet s "track") (pyD [])) "name").beq tn = true
  · simp [hn]
  · simp only [hn, Bool.false_eq_true, if_false]
    rw [get_dict _ "code" (pyOr_dict_isDict _ htr)]
    simp only
    by_cases hc : (dGet (pyOr (dGet s "track") (pyD [])) "code").beq tc = true
    · simp [hn, hc]
    · simp only [hc, Bool.false_eq_true, if_false]
      by_cases hs : (dGet s "track_scope").beq (.str "common") = true
      · simp only [hs, if_true]
        rw [get_skill_related_eq s hd hsk]
        simp only
        have hrl2 : (pyOr (related_resolved_p s) (pyL [])).isList = true := hrl
        rw [iterate_list _ hrl2]
        simp only
        have hwfl : ∀ rt ∈ listOfP (pyOr (related_resolved_p s) (pyL [])), rt_wf rt = true := by
          intro rt hrt
          exact List.all_eq_true.mp hrw rt hrt
        rw [anyRtMatches_eq tn tc _ hwfl]
        have hany : (listOfP (pyOr (related_resolved_p s) (pyL []))).any (rt_matches_spec tn tc)
            = (listOfP (related_iter_p s)).any (rt_matches_spec tn tc) := rfl
        rw [hany]
        simp [hn, hc, hs]
      · simp [hn, hc, hs]

theorem select_matched_eq : ∀ (l : List PyVal) (tn tc : PyVal),
    (∀ s ∈ l, skill_wf s = true) →
    select_matched tn tc l = .ok (l.filter (matches_track_spec tn tc)) := by
  intro l
  induction l with
  | nil => intro tn tc _; rfl
  | cons s ss ih =>
    intro tn tc hwf
    unfold select_matched
    rw [skill_matched_eq tn tc s (hwf s (List.mem_cons_self _ _))]
    simp only
    rw [ih tn tc (fun x hx => hwf x (List.mem_cons_of_mem s hx))]
    simp only [List.filter_cons]

theorem skill_dedup_name_eq (s : PyVal) (hd : s.isDict = true)
    (hn : strOrFalsy (skillFieldP s "name") = true) :
    skill_dedup_name s = .ok (name_key_p s) := by
  have hgf : get_skill_field s "name" = .ok (skillFieldP s "name") := by
    cases s with
    | dict kvs0 =>
      simp only [get_skill_field, skillFieldP]
      cases hlv : lookupA kvs0.toList "skill" with
      | none => rfl
      | some v => cases v <;> rfl
    | none => exact Bool.noConfusion hd
    | bool b => exact Bool.noConfusion hd
    | int n => exact Bool.noConfusion hd
    | str st => exact Bool.noConfusion hd
    | list xs => exact Bool.noConfusion hd
  unfold skill_dedup_name name_key_p pyStripP
  rw [hgf]
  simp only
  unfold strOrFalsy at hn
  by_cases ht : (skillFieldP s "name").truthy = true
  · have hstr : (skillFieldP s "name").isStr = true := by
      rcases Bool.or_eq_true_iff.mp hn with h | h
      · rw [Bool.not_eq_true'] at h
        rw [ht] at h
        cases h
      · exact h
    rw [pyOr_truthy _ _ ht]
    cases hv : skillFieldP s "name" with
    | str st => rfl
    | none => rw [hv] at hstr; cases hstr
    | bool b => rw [hv] at hstr; cases hstr
    | int n => rw [hv] at hstr; cases hstr
    | list xs => rw [hv] at hstr; cases hstr
    | dict kvs => rw [hv] at hstr; cases hstr
  · rw [pyOr_falsy _ _ ht]
    rfl

theorem dedup_names_eq : ∀ (l : List PyVal) (seen : List String),
    (∀ s ∈ l, skill_wf s = true) →
    dedup_names l seen = .ok (dedup_names_spec l seen) := by
  intro l
  induction l with
  | nil => intro _ _; rfl
  | cons s ss ih =>
    intro seen hwf
    obtain ⟨hd, -, -, hnm, -, -, -⟩ := skill_wf_parts s (hwf s (List.mem_cons_self _ _))
    unfold dedup_names dedup_names_spec
    rw [skill_dedup_name_eq s hd hnm]
    simp only
    by_cases hc : (name_key_p s ≠ "" && !(seen.contains (name_key_p s))) = true
    · rw [if_pos hc, if_pos hc]
      rw [ih (name_key_p s :: seen) (fun x hx => hwf x (List.mem_cons_of_mem s hx))]
    · rw [if_neg hc, if_neg hc]
      exact ih seen (fun x hx => hwf x (List.mem_cons_of_mem s hx))

/-- C1 counterexample: a skill that matches its track directly but carries no
name is dropped entirely by `select_skills_for_track`, whereas the claim's
pipeline (plain first-occurrence dedup by name over the matching skills)
keeps it. -/
theorem claim_C1_counterexample :
    select_skills_for_track [pyD [("track", pyD [("name", .str "T")])]] (.str "T") .none 7
      = .ok []
    ∧ matches_track_spec (.str "T") .none (pyD [("track", pyD [("name", .str "T")])]) = true
    ∧ select_skills_claim [pyD [("track", pyD [("name", .str "T")])]] (.str "T") .none 7
      = [pyD [("track", pyD [("name", .str "T")])]] := ⟨rfl, rfl, rfl⟩

/-- C1 (amended): on skill lists whose records are shaped as the data model
describes (`skill_wf`), `select_skills_for_track` returns exactly the skills
matching the dual membership rule (own track name equals the target name or
own code equals the target code, else `track_scope == "common"` with a
related-task reference carrying the target track), deduplicated by trimmed
skill name with the first occurrence winning and blank-named skills dropped,
stably sorted ascending by integer rank with rank-less entries last, and
truncated to the limit. -/
theorem claim_C1 : ∀ (skills : List PyVal) (tn tc : PyVal) (limit : Nat),
    (∀ s ∈ skills, skill_wf s = true) →
    select_skills_for_track skills tn tc limit
      = .ok (select_skills_spec skills tn tc limit) := by
  intro skills tn tc limit hwf
  unfold select_skills_for_track select_skills_spec
  rw [select_matched_eq skills tn tc hwf]
  simp only
  rw [dedup_names_eq _ []
    (fun s hs => hwf s (List.mem_of_mem_filter hs))]

/-- Witness for C1: a concrete well-formed skill list exercising direct,
code-based and common-scope matches, duplicate names and mixed ranks. -/
theorem claim_C1_witness :
    (∀ s ∈ [pyD [("name", .str "s1"), ("track", pyD [("name", .str "T")])],
            pyD [("name", .str "s2"), ("rank", .int 1), ("track", pyD [("name", .str "T")])],
            pyD [("name", .str "s3"), ("rank", .int 0), ("track", pyD [("code", .str "C")])],
            pyD [("name", .str "s2"), ("rank", .int 99), ("track", pyD [("name", .str "T")])],
            pyD [("name", .str "s4"), ("track_scope", .str "common"),
                 ("related_tasks", pyL [pyD [("track", pyD [("name", .str "T")])]])]],
      skill_wf s = true)
    ∧ select_skills_for_track
        [pyD [("name", .str "s1"), ("track", pyD [("name", .str "T")])],
         pyD [("name", .str "s2"), ("rank", .int 1), ("track", pyD [("name", .str "T")])],
         pyD [("name", .str "s3"), ("rank", .int 0), ("track", pyD [("code", .str "C")])],
         pyD [("name", .str "s2"), ("rank", .int 99), ("track", pyD [("name", .str "T")])],
         pyD [("name", .str "s4"), ("track_scope", .str "common"),
              ("related_tasks", pyL [pyD [("track", pyD [("name", .str "T")])]])]]
        (.str "T") (.str "C") 7
      = .ok (select_skills_spec
        [pyD [("name", .str "s1"), ("track", pyD [("name", .str "T")])],
         pyD [("name", .str "s2"), ("rank", .int 1), ("track", pyD [("name", .str "T")])],
         pyD [("name", .str "s3"), ("rank", .int 0), ("track", pyD [("code", .str "C")])],
         pyD [("name", .str "s2"), ("rank", .int 99), ("track", pyD [("name", .str "T")])],
         pyD [("name", .str "s4"), ("track_scope", .str "common"),
              ("related_tasks", pyL [pyD [("track", pyD [("name", .str "T")])]])]]
        (.str "T") (.str "C") 7) := by
  refine ⟨by decide, claim_C1 _ (.str "T") (.str "C") 7 (by decide)⟩

theorem pyStripE_eq (v : PyVal) (h : strOrFalsy v = true) :
    pyStripE (pyOr v (.str "")) = .ok (pyStripP v) := by
  unfold pyStripP
  by_cases ht : v.truthy = true
  · have hstr : v.isStr = true := by
      rcases Bool.or_eq_true_iff.mp h with h2 | h2
      · rw [Bool.not_eq_true'] at h2
        rw [ht] at h2
        cases h2
      · exact h2
    rw [pyOr_truthy _ _ ht]
    cases hv : v <;> first | rfl | (rw [hv] at hstr; cases hstr)
  · rw [pyOr_falsy _ _ ht]
    rfl

theorem resolve_rt_name_eq (m : List (String × String)) (rt : PyVal)
    (h : rt_nt_wf rt = true) :
    resolve_rt_name m rt = .ok (resolve_rt_name_p m rt) := by
  obtain ⟨h1, h2⟩ := Bool.and_eq_true_iff.mp h
  obtain ⟨hd, hn⟩ := Bool.and_eq_true_iff.mp h1
  unfold resolve_rt_name resolve_rt_name_p
  rw [get_dict rt "task_name" hd]
  simp only
  rw [pyStripE_eq _ hn]
  simp only
  by_cases h0 : pyStripP (dGet rt "task_name") = ""
  · rw [if_pos h0, if_pos h0]
    rw [get_dict rt "task_id" hd]
    simp only
    rw [pyStripE_eq _ h2]
  · rw [if_neg h0, if_neg h0]

theorem related_names_go_eq (m : List (String × String)) : ∀ rts : List PyVal,
    (∀ rt ∈ rts, rt_nt_wf rt = true) →
    related_names_go m rts = .ok (related_names_p m rts) := by
  intro rts
  induction rts with
  | nil => intro _; rfl
  | cons rt rest ih =>
    intro hwf
    unfold related_names_go related_names_p
    rw [resolve_rt_name_eq m rt (hwf rt (List.mem_cons_self _ _))]
    simp only
    rw [ih (fun r hr => hwf r (List.mem_cons_of_mem rt hr))]

theorem related_task_names_nt_eq (r : PyVal) (m : List (String × String))
    (h : relatedWF r = true) :
    related_task_names_nt r m = .ok (related_task_names_p r m) := by
  obtain ⟨hl, hall⟩ := Bool.and_eq_true_iff.mp h
  unfold related_task_names_nt related_task_names_p
  rw [iterate_list _ hl]
  simp only
  exact related_names_go_eq m _ (fun rt hrt => List.all_eq_true.mp hall rt hrt)

theorem iter_skill_item_eq (item : PyVal) (h : nt_item_wf item = true) :
    iter_skill_item item = .ok (iter_skill_item_p item) := by
  cases item with
  | dict kvs0 =>
    unfold iter_skill_item iter_skill_item_p
    by_cases hk : hasKey kvs0.toList "skill" = true
    · simp only [hk, if_true]
      have hsd : (pyOr ((lookupA kvs0.toList "skill").getD .none) (pyD [])).isDict = true := by
        simp only [nt_item_wf] at h
        by_cases ht : ((lookupA kvs0.toList "skill").getD .none).truthy = true
        · rw [pyOr_truthy _ _ ht]
          cases hlv : lookupA kvs0.toList "skill" with
          | none =>
            rw [hlv] at ht
            cases ht
          | some v =>
            rw [hlv] at h ht
            rcases Bool.or_eq_true_iff.mp h with h2 | h2
            · exact h2
            · rw [Bool.not_eq_true'] at h2
              have ht2 : v.truthy = true := ht
              rw [ht2] at h2
              cases h2
        · rw [pyOr_falsy _ _ ht]
          rfl
      rw [getDefault_dict _ "name" _ hsd, getDefault_dict _ "definition" _ hsd,
        getDefault_dict _ "tech_stack" _ hsd, get_dict _ "related_tasks" hsd]
    · simp only [hk, Bool.false_eq_true, if_false]
  | none => rfl
  | bool b => rfl
  | int n => rfl
  | str st => rfl
  | list xs => rfl

/-- C3 counterexample: a related-task reference that is not a mapping makes
`related_task_names_nt` raise (`AttributeError` on `.get`), and a skill entry
whose truthy `skill` sub-field is not a mapping makes `iter_skills_nt`
raise — normalization/selection is not exception-free on arbitrary malformed
sub-fields. -/
theorem claim_C3_counterexample :
    exceptIsOk (related_task_names_nt (pyL [.str "foo"]) []) = false
    ∧ exceptIsOk (iter_skill_item (pyD [("skill", .str "x")])) = false := ⟨rfl, rfl⟩

/-- C3 (amended): missing keys never raise — they degrade to empty defaults
(an entirely empty skill entry normalizes to empty name/definition, empty
tech stack and no related tasks, and absent related-task lists resolve to no
names).  Normalization and name resolution are exception-free on entries
whose `skill` sub-field is a mapping (or falsy) and whose related-task
references are mappings with string-or-falsy `task_name`/`task_id`; but a
truthy non-mapping `skill` sub-field or a non-mapping related-task reference
raises an attribute error. -/
theorem claim_C3 :
    (∀ (r : PyVal) (m : List (String × String)), relatedWF r = true →
      related_task_names_nt r m = .ok (related_task_names_p r m))
    ∧ (∀ item : PyVal, nt_item_wf item = true →
      iter_skill_item item = .ok (iter_skill_item_p item))
    ∧ iter_skill_item (pyD [])
        = .ok (pyD [("name", .str ""), ("definition", .str ""),
                    ("tech_stack", pyD []), ("related_tasks", pyL [])])
    ∧ related_task_names_nt .none [] = .ok []
    ∧ exceptIsOk (related_task_names_nt (pyL [.str "foo"]) []) = false :=
  ⟨related_task_names_nt_eq, iter_skill_item_eq, rfl, rfl, rfl⟩

/-- Witness for C3 on a concrete well-formed skill entry and reference
list. -/
theorem claim_C3_witness :
    related_task_names_nt (pyL [pyD [("task_name", .str " T1 ")]]) []
      = .ok (related_task_names_p (pyL [pyD [("task_name", .str " T1 ")]]) [])
    ∧ iter_skill_item (pyD [("skill", pyD [("name", .str "S")])])
      = .ok (iter_skill_item_p (pyD [("skill", pyD [("name", .str "S")])])) :=
  ⟨claim_C3.1 (pyL [pyD [("task_name", .str " T1 ")]]) [] (by decide),
   claim_C3.2.1 (pyD [("skill", pyD [("name", .str "S")])]) (by decide)⟩

/-- C2 counterexample: in Track mode shortfall rows are NOT blanked.  Writing
3 tasks into a duplicated template sheet whose every cell holds `"OLD"`
leaves rows 8–14 of the window with the template content (cell A8 still
reads `"OLD"`, not `""`), contradicting the claim that both modes blank the
shortfall. -/
theorem claim_C2_counterexample :
    (write_task_sheet (fun _ => .str "OLD") "org" "job" (.str "T")
        [pyD [("task_name", .str "t1")], pyD [("task_name", .str "t2")],
         pyD [("task_name", .str "t3")]]).map
      (fun w => (w (1, 5), w (1, 8), w (1, 14)))
      = .ok (.str "t1", .str "OLD", .str "OLD")
    ∧ PyVal.str "OLD" ≠ PyVal.str "" := by
  refine ⟨rfl, ?_⟩
  intro h
  injection h with h2
  exact absurd h2 (by decide)

theorem foldl_set_text_apply : ∀ (cols : List Nat) (ws : Sheet) (r : Nat) (p : Nat × Nat),
    (cols.foldl (fun w c => set_text w c r "") ws) p
      = if p.2 = r ∧ p.1 ∈ cols then .str "" else ws p := by
  intro cols
  induction cols with
  | nil =>
    intro ws r p
    simp
  | cons c cs ih =>
    intro ws r p
    rw [List.foldl_cons, ih]
    unfold set_text Sheet.set
    obtain ⟨pc, pr⟩ := p
    simp only [Prod.mk.injEq, List.mem_cons]
    split_ifs <;> tauto

theorem blank_rows_go_apply (cols : List Nat) : ∀ (n : Nat) (ws : Sheet) (r : Nat)
    (p : Nat × Nat),
    blank_rows_go cols ws r n p
      = if r ≤ p.2 ∧ p.2 < r + n ∧ p.1 ∈ cols then .str "" else ws p := by
  intro n
  induction n with
  | zero =>
    intro ws r p
    unfold blank_rows_go
    rw [if_neg (by omega)]
  | succ k ih =>
    intro ws r p
    unfold blank_rows_go
    rw [ih, foldl_set_text_apply]
    obtain ⟨pc, pr⟩ := p
    by_cases hcol : pc ∈ cols
    · simp only [hcol, and_true]
      split_ifs <;> first | rfl | omega
    · simp only [hcol, and_false, if_false]

theorem mapE_eq (f : PyVal → Except String PyVal) (g : PyVal → PyVal) :
    ∀ l : List PyVal, (∀ x ∈ l, f x = .ok (g x)) → mapE f l = .ok (l.map g) := by
  intro l
  induction l with
  | nil => intro _; rfl
  | cons x xs ih =>
    intro h
    unfold mapE
    rw [h x (List.mem_cons_self _ _)]
    simp only
    rw [ih (fun y hy => h y (List.mem_cons_of_mem x hy))]
    rfl

theorem pySliceTake_list (v : PyVal) (h : v.isList = true) (n : Nat) :
    pySliceTake v n = .ok (pyL ((listOfP v).take n)) := by
  cases v <;> first | rfl | exact Bool.noConfusion h

theorem iterate_pyL (l : List PyVal) : (pyL l).iterate = .ok l := by
  show Except.ok (PyList.ofList l).toList = Except.ok l
  rw [pyList_toList_ofList]

theorem get_skill_field_eq (s : PyVal) (k : String) (hd : s.isDict = true) :
    get_skill_field s k = .ok (skillFieldP s k) := by
  cases s with
  | dict kvs0 =>
    simp only [get_skill_field, skillFieldP]
    cases hlv : lookupA kvs0.toList "skill" with
    | none => rfl
    | some v => cases v <;> rfl
  | none => exact Bool.noConfusion hd
  | bool b => exact Bool.noConfusion hd
  | int n => exact Bool.noConfusion hd
  | str st => exact Bool.noConfusion hd
  | list xs => exact Bool.noConfusion hd

theorem build_task_map_eq : ∀ (l : List PyVal) (m : List (String × String)),
    (∀ t ∈ l, t.isDict = true) → build_task_map l m = .ok (build_task_map_p l m) := by
  intro l
  induction l with
  | nil => intro m _; rfl
  | cons t ts ih =>
    intro m hwf
    have hd := hwf t (List.mem_cons_self _ _)
    unfold build_task_map build_task_map_p
    rw [get_dict t "task_id" hd]
    simp only
    rw [get_dict t "task_name" hd]
    simp only
    by_cases hc : (pyStripS (pyStr (pyOr (dGet t "task_id") (.str ""))) ≠ ""
        && pyStripS (pyStr (pyOr (dGet t "task_name") (.str ""))) ≠ "") = true
    · rw [if_pos hc, if_pos hc]
      exact ih _ (fun x hx => hwf x (List.mem_cons_of_mem t hx))
    · rw [if_neg hc, if_neg hc]
      exact ih _ (fun x hx => hwf x (List.mem_cons_of_mem t hx))

theorem fill_tasks_nt_spec : ∀ (ts : List PyVal) (ws : Sheet) (k : Nat),
    (∀ t ∈ ts, t.isDict = true) →
    fill_tasks_nt ws k ts = .ok (fun p =>
      if k ≤ p.2 ∧ p.2 - k < ts.length ∧ (p.1 = 1 ∨ p.1 = 3) then
        .str (if p.1 = 1 then nt_task_a_p (ts.getD (p.2 - k) .none)
              else nt_task_c_p (ts.getD (p.2 - k) .none))
      else ws p) := by
  intro ts
  induction ts with
  | nil =>
    intro ws k _
    unfold fill_tasks_nt
    congr 1
    funext p
    have hlen : ([] : List PyVal).length = 0 := rfl
    rw [if_neg (by rw [hlen]; omega)]
  | cons t ts ih =>
    intro ws k hwf
    have hd := hwf t (List.mem_cons_self _ _)
    unfold fill_tasks_nt nt_task_cellA nt_task_cellC
    rw [get_dict t "task_name" hd]
    simp only
    rw [get_dict t "task_description" hd]
    simp only
    rw [ih _ (k + 1) (fun x hx => hwf x (List.mem_cons_of_mem t hx))]
    congr 1
    funext p
    obtain ⟨c, r⟩ := p
    simp only [set_text, Sheet.set, List.length_cons]
    by_cases hc : c = 1 ∨ c = 3
    · by_cases hr1 : k ≤ r
      · by_cases hr2 : r = k
        · subst hr2
          rw [if_neg (show ¬ (r + 1 ≤ r ∧ r - (r + 1) < ts.length ∧ (c = 1 ∨ c = 3)) by
              omega)]
          rw [if_pos (show r ≤ r ∧ r - r < ts.length + 1 ∧ (c = 1 ∨ c = 3) from
              ⟨le_refl r, by omega, hc⟩)]
          rw [Nat.sub_self, List.getD_cons_zero]
          rcases hc with rfl | rfl
          · rw [if_neg (show ¬ (((1 : Nat), r) = (3, r)) from by simp)]
            rw [if_pos (show ((1 : Nat), r) = (1, r) from rfl)]
            rw [if_pos (show (1 : Nat) = 1 from rfl)]
            rfl
          · rw [if_pos (show ((3 : Nat), r) = (3, r) from rfl)]
            rw [if_neg (show ¬ ((3 : Nat) = 1) by omega)]
            rfl
        · have hr3 : k + 1 ≤ r := by omega
          by_cases hin : r - (k + 1) < ts.length
          · rw [if_pos (show k + 1 ≤ r ∧ r - (k + 1) < ts.length ∧ (c = 1 ∨ c = 3) from
                ⟨hr3, hin, hc⟩)]
            rw [if_pos (show k ≤ r ∧ r - k < ts.length + 1 ∧ (c = 1 ∨ c = 3) from
                ⟨hr1, by omega, hc⟩)]
            have hidx : r - k = (r - (k + 1)) + 1 := by omega
            rw [hidx, List.getD_cons_succ]
          · rw [if_neg (show ¬ (k + 1 ≤ r ∧ r - (k + 1) < ts.length ∧ (c = 1 ∨ c = 3)) from
                fun h2 => hin h2.2.1)]
            rw [if_neg (show ¬ (k ≤ r ∧ r - k < ts.length + 1 ∧ (c = 1 ∨ c = 3)) by omega)]
            rw [if_neg (show ¬ ((c, r) = (3, k)) from
                fun h2 => hr2 (congrArg Prod.snd h2))]
            rw [if_neg (show ¬ ((c, r) = (1, k)) from
                fun h2 => hr2 (congrArg Prod.snd h2))]
      · rw [if_neg (show ¬ (k + 1 ≤ r ∧ r - (k + 1) < ts.length ∧ (c = 1 ∨ c = 3)) by
            omega)]
        rw [if_neg (show ¬ (k ≤ r ∧ r - k < ts.length + 1 ∧ (c = 1 ∨ c = 3)) by omega)]
        rw [if_neg (show ¬ ((c, r) = (3, k)) from
            fun h2 => hr1 (le_of_eq (congrArg Prod.snd h2).symm))]
        rw [if_neg (show ¬ ((c, r) = (1, k)) from
            fun h2 => hr1 (le_of_eq (congrArg Prod.snd h2).symm))]
    · rw [if_neg (show ¬ (k + 1 ≤ r ∧ r - (k + 1) < ts.length ∧ (c = 1 ∨ c = 3)) from
          fun h2 => hc h2.2.2)]
      rw [if_neg (show ¬ (k ≤ r ∧ r - k < ts.length + 1 ∧ (c = 1 ∨ c = 3)) from
          fun h2 => hc h2.2.2)]
      rw [if_neg (show ¬ ((c, r) = (3, k)) from
          fun h2 => hc (Or.inr (congrArg Prod.fst h2)))]
      rw [if_neg (show ¬ ((c, r) = (1, k)) from
          fun h2 => hc (Or.inl (congrArg Prod.fst h2)))]

theorem nt_skill_cells_eq (m : List (String × String)) (s : PyVal) (hd : s.isDict = true)
    (hrel : relatedWF (dGet s "related_tasks") = true) :
    nt_skill_cells m s = .ok (nt_skill_cells_p m s) := by
  unfold nt_skill_cells nt_skill_cells_p
  rw [get_dict s "related_tasks" hd]
  simp only
  rw [related_task_names_nt_eq _ m hrel]
  simp only
  rw [get_dict s "name" hd, get_dict s "definition" hd, get_dict s "tech_stack" hd]

theorem fill_skills_nt_spec (m : List (String × String)) : ∀ (ss : List PyVal) (ws : Sheet)
    (k : Nat),
    (∀ s ∈ ss, s.isDict = true ∧ relatedWF (dGet s "related_tasks") = true) →
    fill_skills_nt m ws k ss = .ok (fun p =>
      if k ≤ p.2 ∧ p.2 - k < ss.length ∧ (p.1 = 1 ∨ p.1 = 2 ∨ p.1 = 4 ∨ p.1 = 6) then
        .str (nt_skill_cell_col m (ss.getD (p.2 - k) .none) p.1)
      else ws p) := by
  intro ss
  induction ss with
  | nil =>
    intro ws k _
    unfold fill_skills_nt
    congr 1
    funext p
    have hlen : ([] : List PyVal).length = 0 := rfl
    rw [if_neg (by rw [hlen]; omega)]
  | cons s ss ih =>
    intro ws k hwf
    obtain ⟨hd, hrel⟩ := hwf s (List.mem_cons_self _ _)
    unfold fill_skills_nt
    rw [nt_skill_cells_eq m s hd hrel]
    simp only
    rw [ih _ (k + 1) (fun x hx => hwf x (List.mem_cons_of_mem s hx))]
    congr 1
    funext p
    obtain ⟨c, r⟩ := p
    simp only [set_text, Sheet.set, List.length_cons]
    by_cases hc : c = 1 ∨ c = 2 ∨ c = 4 ∨ c = 6
    · by_cases hr1 : k ≤ r
      · by_cases hr2 : r = k
        · subst hr2
          rw [if_neg (show ¬ (r + 1 ≤ r ∧ r - (r + 1) < ss.length ∧
              (c = 1 ∨ c = 2 ∨ c = 4 ∨ c = 6)) by omega)]
          rw [if_pos (show r ≤ r ∧ r - r < ss.length + 1 ∧ (c = 1 ∨ c = 2 ∨ c = 4 ∨ c = 6)
              from ⟨le_refl r, by omega, hc⟩)]
          rw [Nat.sub_self, List.getD_cons_zero]
          simp only [nt_skill_cell_col]
          rcases hc with rfl | rfl | rfl | rfl
          · rw [if_neg (show ¬ (((1 : Nat), r) = (6, r)) from by simp)]
            rw [if_neg (show ¬ (((1 : Nat), r) = (4, r)) from by simp)]
            rw [if_neg (show ¬ (((1 : Nat), r) = (2, r)) from by simp)]
            rw [if_pos (show ((1 : Nat), r) = (1, r) from rfl)]
            rw [if_pos (show (1 : Nat) = 1 from rfl)]
          · rw [if_neg (show ¬ (((2 : Nat), r) = (6, r)) from by simp)]
            rw [if_neg (show ¬ (((2 : Nat), r) = (4, r)) from by simp)]
            rw [if_pos (show ((2 : Nat), r) = (2, r) from rfl)]
            rw [if_neg (show ¬ ((2 : Nat) = 1) by omega)]
            rw [if_pos (show (2 : Nat) = 2 from rfl)]
          · rw [if_neg (show ¬ (((4 : Nat), r) = (6, r)) from by simp)]
            rw [if_pos (show ((4 : Nat), r) = (4, r) from rfl)]
            rw [if_neg (show ¬ ((4 : Nat) = 1) by omega)]
            rw [if_neg (show ¬ ((4 : Nat) = 2) by omega)]
            rw [if_pos (show (4 : Nat) = 4 from rfl)]
          · rw [if_pos (show ((6 : Nat), r) = (6, r) from rfl)]
            rw [if_neg (show ¬ ((6 : Nat) = 1) by omega)]
            rw [if_neg (show ¬ ((6 : Nat) = 2) by omega)]
            rw [if_neg (show ¬ ((6 : Nat) = 4) by omega)]
        · have hr3 : k + 1 ≤ r := by omega
          by_cases hin : r - (k + 1) < ss.length
          · rw [if_pos (show k + 1 ≤ r ∧ r - (k + 1) < ss.length ∧
                (c = 1 ∨ c = 2 ∨ c = 4 ∨ c = 6) from ⟨hr3, hin, hc⟩)]
            rw [if_pos (show k ≤ r ∧ r - k < ss.length + 1 ∧ (c = 1 ∨ c = 2 ∨ c = 4 ∨ c = 6)
                from ⟨hr1, by omega, hc⟩)]
            have hidx : r - k = (r - (k + 1)) + 1 := by omega
            rw [hidx, List.getD_cons_succ]
          · rw [if_neg (show ¬ (k + 1 ≤ r ∧ r - (k + 1) < ss.length ∧
                (c = 1 ∨ c = 2 ∨ c = 4 ∨ c = 6)) from fun h2 => hin h2.2.1)]
            rw [if_neg (show ¬ (k ≤ r ∧ r - k < ss.length + 1 ∧
                (c = 1 ∨ c = 2 ∨ c = 4 ∨ c = 6)) by omega)]
            rw [if_neg (show ¬ ((c, r) = (6, k)) from fun h2 => hr2 (congrArg Prod.snd h2))]
            rw [if_neg (show ¬ ((c, r) = (4, k)) from fun h2 => hr2 (congrArg Prod.snd h2))]
            rw [if_neg (show ¬ ((c, r) = (2, k)) from fun h2 => hr2 (congrArg Prod.snd h2))]
            rw [if_neg (show ¬ ((c, r) = (1, k)) from fun h2 => hr2 (congrArg Prod.snd h2))]
      · rw [if_neg (show ¬ (k + 1 ≤ r ∧ r - (k + 1) < ss.length ∧
            (c = 1 ∨ c = 2 ∨ c = 4 ∨ c = 6)) by omega)]
        rw [if_neg (show ¬ (k ≤ r ∧ r - k < ss.length + 1 ∧
            (c = 1 ∨ c = 2 ∨ c = 4 ∨ c = 6)) by omega)]
        rw [if_neg (show ¬ ((c, r) = (6, k)) from
            fun h2 => hr1 (le_of_eq (congrArg Prod.snd h2).symm))]
        rw [if_neg (show ¬ ((c, r) = (4, k)) from
            fun h2 => hr1 (le_of_eq (congrArg Prod.snd h2).symm))]
        rw [if_neg (show ¬ ((c, r) = (2, k)) from
            fun h2 => hr1 (le_of_eq (congrArg Prod.snd h2).symm))]
        rw [if_neg (show ¬ ((c, r) = (1, k)) from
            fun h2 => hr1 (le_of_eq (congrArg Prod.snd h2).symm))]
    · rw [if_neg (show ¬ (k + 1 ≤ r ∧ r - (k + 1) < ss.length ∧
          (c = 1 ∨ c = 2 ∨ c = 4 ∨ c = 6)) from fun h2 => hc h2.2.2)]
      rw [if_neg (show ¬ (k ≤ r ∧ r - k < ss.length + 1 ∧
          (c = 1 ∨ c = 2 ∨ c = 4 ∨ c = 6)) from fun h2 => hc h2.2.2)]
      rw [if_neg (show ¬ ((c, r) = (6, k)) from
          fun h2 => hc (Or.inr (Or.inr (Or.inr (congrArg Prod.fst h2)))))]
      rw [if_neg (show ¬ ((c, r) = (4, k)) from
          fun h2 => hc (Or.inr (Or.inr (Or.inl (congrArg Prod.fst h2)))))]
      rw [if_neg (show ¬ ((c, r) = (2, k)) from
          fun h2 => hc (Or.inr (Or.inl (congrArg Prod.fst h2))))]
      rw [if_neg (show ¬ ((c, r) = (1, k)) from
          fun h2 => hc (Or.inl (congrArg Prod.fst h2)))]

theorem data_wf_nt_parts (data : PyVal) (h : data_wf_nt data = true) :
    data.isDict = true
    ∧ (pyOr (dGet data "tasks") (pyL [])).isList = true
    ∧ (∀ t ∈ listOfP (pyOr (dGet data "tasks") (pyL [])), t.isDict = true)
    ∧ (pyOr (dGet data "skills") (pyL [])).isList = true
    ∧ (∀ item ∈ (listOfP (pyOr (dGet data "skills") (pyL []))).take 8,
        nt_skill_item_wf item = true) := by
  unfold data_wf_nt at h
  simp only [Bool.and_eq_true] at h
  exact ⟨h.1.1.1.1, h.1.1.1.2, fun t ht => List.all_eq_true.mp h.1.1.2 t ht,
    h.1.2, fun x hx => List.all_eq_true.mp h.2 x hx⟩

theorem iter_skill_item_p_isDict (item : PyVal) : (iter_skill_item_p item).isDict = true := by
  cases item with
  | dict kvs0 =>
    simp only [iter_skill_item_p]
    split_ifs <;> rfl
  | none => rfl
  | bool b => rfl
  | int n => rfl
  | str s => rfl
  | list xs => rfl

theorem build_task_sheet_nt_eq (ws0 : Sheet) (org role : String) (data : PyVal)
    (h : data_wf_nt data = true) :
    build_task_sheet_nt ws0 org role data
      = .ok (nt_task_sheet_expected ws0 org role (nt_tasks_of data),
             build_task_map_p (nt_tasks_of data) []) := by
  obtain ⟨hD, hTL, hTall, hSL, hSwf⟩ := data_wf_nt_parts data h
  simp only [build_task_sheet_nt, collect_tasks_nt, nt_tasks_of]
  rw [get_dict data "tasks" hD]
  simp only
  rw [iterate_list _ hTL]
  simp only
  rw [build_task_map_eq _ [] hTall]
  simp only
  rw [pySliceTake_list _ hTL 10]
  simp only
  rw [iterate_pyL]
  simp only
  rw [fill_tasks_nt_spec _ _ 5 (fun t ht => hTall t (List.take_subset 10 _ ht))]
  simp only
  congr 1
  congr 1
  funext p
  obtain ⟨c, r⟩ := p
  rw [blank_rows_go_apply]
  have hL : (List.take 10 (listOfP (pyOr (dGet data "tasks") (pyL [])))).length ≤ 10 :=
    List.length_take_le 10 _
  have harith : ∀ x : Nat, x ≤ 10 → 5 + x + (14 + 1 - (5 + x)) = 15 := by omega
  rw [harith _ hL]
  simp only [nt_task_sheet_expected, List.mem_cons, List.mem_nil_iff, or_false,
    Prod.mk.injEq, set_text, Sheet.set]
  split_ifs <;> first | rfl | omega

theorem build_skill_sheet_nt_eq (ws0 : Sheet) (org role : String) (data : PyVal)
    (m : List (String × String)) (h : data_wf_nt data = true) :
    build_skill_sheet_nt ws0 org role data m
      = .ok (nt_skill_sheet_expected ws0 org role m (nt_skills_of data)) := by
  obtain ⟨hD, hTL, hTall, hSL, hSwf⟩ := data_wf_nt_parts data h
  have hitems : ∀ x ∈ (listOfP (pyOr (dGet data "skills") (pyL []))).take 8,
      iter_skill_item x = .ok (iter_skill_item_p x) := by
    intro x hx
    have hwf := hSwf x hx
    unfold nt_skill_item_wf at hwf
    exact iter_skill_item_eq x (Bool.and_eq_true_iff.mp hwf).1
  have hused : ∀ s ∈ (((listOfP (pyOr (dGet data "skills") (pyL []))).take 8).map
      iter_skill_item_p).take 7,
      s.isDict = true ∧ relatedWF (dGet s "related_tasks") = true := by
    intro s hs
    obtain ⟨item, hitem, rfl⟩ := List.mem_map.mp (List.take_subset 7 _ hs)
    have hwf := hSwf item hitem
    unfold nt_skill_item_wf at hwf
    exact ⟨iter_skill_item_p_isDict item, (Bool.and_eq_true_iff.mp hwf).2⟩
  simp only [build_skill_sheet_nt, nt_skills_of]
  rw [get_dict data "skills" hD]
  simp only
  rw [iterate_list _ hSL]
  simp only
  rw [mapE_eq iter_skill_item iter_skill_item_p _ hitems]
  simp only
  rw [fill_skills_nt_spec m _ _ 5 hused]
  simp only
  congr 1
  funext p
  obtain ⟨c, r⟩ := p
  rw [blank_rows_go_apply]
  have hL : ((((listOfP (pyOr (dGet data "skills") (pyL []))).take 8).map
      iter_skill_item_p).take 7).length ≤ 7 := List.length_take_le 7 _
  have harith : ∀ x : Nat, x ≤ 7 → 5 + x + (11 + 1 - (5 + x)) = 12 := by omega
  rw [harith _ hL]
  simp only [nt_skill_sheet_expected, List.mem_cons, List.mem_nil_iff, or_false,
    Prod.mk.injEq, set_text, Sheet.set]
  split_ifs <;> first | rfl | omega

theorem build_workbook_nontrack_eq (ws_task0 ws_skill0 : Sheet) (org role : String)
    (data : PyVal) (h : data_wf_nt data = true) :
    build_workbook_nontrack ws_task0 ws_skill0 org role data
      = .ok (nt_task_sheet_expected ws_task0 org role (nt_tasks_of data),
             nt_skill_sheet_expected ws_skill0 org role
               (build_task_map_p (nt_tasks_of data) []) (nt_skills_of data)) := by
  unfold build_workbook_nontrack
  rw [build_task_sheet_nt_eq ws_task0 org role data h]
  simp only
  rw [build_skill_sheet_nt_eq ws_skill0 org role data _ h]

theorem rt_wf_bullets_parts (rt : PyVal) (h : rt_wf_bullets rt = true) :
    (pyOr rt (pyD [])).isDict = true
    ∧ dictOrFalsy (dGet (pyOr rt (pyD [])) "track") = true := by
  unfold rt_wf_bullets at h
  obtain ⟨h1, h2⟩ := Bool.and_eq_true_iff.mp h
  refine ⟨?_, h2⟩
  by_cases ht : rt.truthy = true
  · rw [pyOr_truthy rt _ ht]
    rcases Bool.or_eq_true_iff.mp h1 with h3 | h3
    · exact h3
    · rw [Bool.not_eq_true'] at h3
      rw [ht] at h3
      cases h3
  · rw [pyOr_falsy rt _ ht]
    rfl

theorem bullets_rt_go_eq (tn : PyVal) : ∀ (rts : List PyVal) (seen : List PyVal),
    (∀ rt ∈ rts, rt_wf_bullets rt = true) →
    bullets_rt_go tn seen rts = .ok (bullets_rt_go_p tn seen rts) := by
  intro rts
  induction rts with
  | nil => intro seen _; rfl
  | cons rt rest ih =>
    intro seen hwf
    obtain ⟨hd, htr⟩ := rt_wf_bullets_parts rt (hwf rt (List.mem_cons_self _ _))
    have htail := fun x hx => hwf x (List.mem_cons_of_mem rt hx)
    simp only [bullets_rt_go, bullets_rt_go_p]
    rw [get_dict _ "task_name" hd]
    simp only
    rw [get_dict _ "track" hd]
    simp only
    rw [get_dict _ "name" (pyOr_dict_isDict _ htr)]
    simp only
    split_ifs with hcond
    · rw [ih _ htail]
    · exact ih _ htail

theorem bullets_from_related_eq (r tn : PyVal)
    (hsh : (!r.truthy || r.isList) = true)
    (hall : ∀ rt ∈ listOfP r, rt_wf_bullets rt = true) :
    bullets_from_related_tasks r tn = .ok (bullets_from_related_tasks_p r tn) := by
  unfold bullets_from_related_tasks bullets_from_related_tasks_p
  by_cases ht : r.truthy = true
  · rw [if_pos ht, if_pos ht]
    have hl : r.isList = true := by
      rcases Bool.or_eq_true_iff.mp hsh with h2 | h2
      · rw [Bool.not_eq_true'] at h2
        rw [ht] at h2
        cases h2
      · exact h2
    rw [iterate_list r hl]
    simp only
    rw [bullets_rt_go_eq tn (listOfP r) [] hall]
  · rw [if_neg ht, if_neg ht]

theorem tech_line_for_eq (ts : PyVal) (key : String) (hd : ts.isDict = true) :
    tech_line_for ts key = .ok (tech_line_p ts key) := by
  unfold tech_line_for tech_line_p
  rw [get_dict ts key hd]

theorem bullets_tech_eq (tech : PyVal) (hd : (pyOr tech (pyD [])).isDict = true) :
    bullets_from_tech_stack tech = .ok (bullets_from_tech_stack_p tech) := by
  simp only [bullets_from_tech_stack, bullets_from_tech_stack_p]
  rw [tech_line_for_eq _ "language" hd, tech_line_for_eq _ "os" hd,
    tech_line_for_eq _ "tools" hd]

theorem skill_row_wf_t_parts (s : PyVal) (h : skill_row_wf_t s = true) :
    s.isDict = true
    ∧ skill_sub_dict_ok s = true
    ∧ (!(related_resolved_p s).truthy || (related_resolved_p s).isList) = true
    ∧ (∀ rt ∈ listOfP (related_resolved_p s), rt_wf_bullets rt = true)
    ∧ dictOrFalsy (skillFieldP s "tech_stack") = true := by
  unfold skill_row_wf_t at h
  simp only [Bool.and_eq_true] at h
  exact ⟨h.1.1.1.1, h.1.1.1.2, h.1.1.2,
    fun rt hrt => List.all_eq_true.mp h.1.2 rt hrt, h.2⟩

theorem skill_cells_t_eq (tn s : PyVal) (h : skill_row_wf_t s = true) :
    skill_cells_t tn s = .ok (skill_cells_t_p tn s) := by
  obtain ⟨hd, hsk, hsh, hall, htech⟩ := skill_row_wf_t_parts s h
  unfold skill_cells_t skill_cells_t_p
  rw [get_skill_related_eq s hd hsk]
  simp only
  rw [bullets_from_related_eq _ tn hsh hall]
  simp only
  rw [get_skill_field_eq s "name" hd, get_skill_field_eq s "definition" hd,
    get_skill_field_eq s "tech_stack" hd]
  simp only
  have htech2 : (pyOr (pyOr (skillFieldP s "tech_stack") (pyD [])) (pyD [])).isDict = true := by
    rw [pyOr_pyOr]
    exact pyOr_dict_isDict _ htech
  rw [bullets_tech_eq _ htech2]

theorem fill_tasks_t_spec : ∀ (ts : List PyVal) (ws : Sheet) (k : Nat),
    (∀ t ∈ ts, t.isDict = true) →
    fill_tasks_t ws k ts = .ok (fun p =>
      if k ≤ p.2 ∧ p.2 ≤ 14 ∧ p.2 - k < ts.length ∧ (p.1 = 1 ∨ p.1 = 3) then
        (if p.1 = 1 then t_task_a_p (ts.getD (p.2 - k) .none)
         else t_task_c_p (ts.getD (p.2 - k) .none))
      else ws p) := by
  intro ts
  induction ts with
  | nil =>
    intro ws k _
    unfold fill_tasks_t
    congr 1
    funext p
    have hlen : ([] : List PyVal).length = 0 := rfl
    rw [if_neg (by rw [hlen]; omega)]
  | cons t ts ih =>
    intro ws k hwf
    have hd := hwf t (List.mem_cons_self _ _)
    unfold fill_tasks_t
    by_cases hbig : k > 14
    · rw [if_pos hbig]
      congr 1
      funext p
      obtain ⟨c, r⟩ := p
      simp only [List.length_cons]
      rw [if_neg (show ¬ (k ≤ r ∧ r ≤ 14 ∧ r - k < ts.length + 1 ∧ (c = 1 ∨ c = 3)) by
          omega)]
    · rw [if_neg hbig]
      rw [get_dict t "task_name" hd]
      simp only
      rw [get_dict t "task_description" hd]
      simp only
      rw [ih _ (k + 1) (fun x hx => hwf x (List.mem_cons_of_mem t hx))]
      congr 1
      funext p
      obtain ⟨c, r⟩ := p
      simp only [Sheet.set, List.length_cons]
      by_cases hc : c = 1 ∨ c = 3
      · by_cases hr1 : k ≤ r
        · by_cases hr2 : r = k
          · subst hr2
            rw [if_neg (show ¬ (r + 1 ≤ r ∧ r ≤ 14 ∧ r - (r + 1) < ts.length ∧
                (c = 1 ∨ c = 3)) by omega)]
            rw [if_pos (show r ≤ r ∧ r ≤ 14 ∧ r - r < ts.length + 1 ∧ (c = 1 ∨ c = 3) from
                ⟨le_refl r, by omega, by omega, hc⟩)]
            rw [Nat.sub_self, List.getD_cons_zero]
            rcases hc with rfl | rfl
            · rw [if_neg (show ¬ (((1 : Nat), r) = (3, r)) from by simp)]
              rw [if_pos (show ((1 : Nat), r) = (1, r) from rfl)]
              rw [if_pos (show (1 : Nat) = 1 from rfl)]
              rfl
            · rw [if_pos (show ((3 : Nat), r) = (3, r) from rfl)]
              rw [if_neg (show ¬ ((3 : Nat) = 1) by omega)]
              rfl
          · have hr3 : k + 1 ≤ r := by omega
            by_cases hin : r ≤ 14 ∧ r - (k + 1) < ts.length
            · rw [if_pos (show k + 1 ≤ r ∧ r ≤ 14 ∧ r - (k + 1) < ts.length ∧
                  (c = 1 ∨ c = 3) from ⟨hr3, hin.1, hin.2, hc⟩)]
              rw [if_pos (show k ≤ r ∧ r ≤ 14 ∧ r - k < ts.length + 1 ∧ (c = 1 ∨ c = 3)
                  from ⟨hr1, hin.1, by omega, hc⟩)]
              have hidx : r - k = (r - (k + 1)) + 1 := by omega
              rw [hidx, List.getD_cons_succ]
            · rw [if_neg (show ¬ (k + 1 ≤ r ∧ r ≤ 14 ∧ r - (k + 1) < ts.length ∧
                  (c = 1 ∨ c = 3)) from fun h2 => hin ⟨h2.2.1, h2.2.2.1⟩)]
              rw [if_neg (show ¬ (k ≤ r ∧ r ≤ 14 ∧ r - k < ts.length + 1 ∧
                  (c = 1 ∨ c = 3)) by omega)]
              rw [if_neg (show ¬ ((c, r) = (3, k)) from
                  fun h2 => hr2 (congrArg Prod.snd h2))]
              rw [if_neg (show ¬ ((c, r) = (1, k)) from
                  fun h2 => hr2 (congrArg Prod.snd h2))]
        · rw [if_neg (show ¬ (k + 1 ≤ r ∧ r ≤ 14 ∧ r - (k + 1) < ts.length ∧
              (c = 1 ∨ c = 3)) by omega)]
          rw [if_neg (show ¬ (k ≤ r ∧ r ≤ 14 ∧ r - k < ts.length + 1 ∧ (c = 1 ∨ c = 3)) by
              omega)]
          rw [if_neg (show ¬ ((c, r) = (3, k)) from
              fun h2 => hr1 (le_of_eq (congrArg Prod.snd h2).symm))]
          rw [if_neg (show ¬ ((c, r) = (1, k)) from
              fun h2 => hr1 (le_of_eq (congrArg Prod.snd h2).symm))]
      · rw [if_neg (show ¬ (k + 1 ≤ r ∧ r ≤ 14 ∧ r - (k + 1) < ts.length ∧
            (c = 1 ∨ c = 3)) from fun h2 => hc h2.2.2.2)]
        rw [if_neg (show ¬ (k ≤ r ∧ r ≤ 14 ∧ r - k < ts.length + 1 ∧ (c = 1 ∨ c = 3)) from
            fun h2 => hc h2.2.2.2)]
        rw [if_neg (show ¬ ((c, r) = (3, k)) from
            fun h2 => hc (Or.inr (congrArg Prod.fst h2)))]
        rw [if_neg (show ¬ ((c, r) = (1, k)) from
            fun h2 => hc (Or.inl (congrArg Prod.fst h2)))]

theorem fill_skills_t_spec (tn : PyVal) : ∀ (ss : List PyVal) (ws : Sheet) (k : Nat),
    (∀ s ∈ ss, skill_row_wf_t s = true) →
    fill_skills_t tn ws k ss = .ok (fun p =>
      if k ≤ p.2 ∧ p.2 ≤ 11 ∧ p.2 - k < ss.length ∧ (p.1 = 1 ∨ p.1 = 2 ∨ p.1 = 4 ∨ p.1 = 6)
      then t_skill_cell_col tn (ss.getD (p.2 - k) .none) p.1
      else ws p) := by
  intro ss
  induction ss with
  | nil =>
    intro ws k _
    unfold fill_skills_t
    congr 1
    funext p
    have hlen : ([] : List PyVal).length = 0 := rfl
    rw [if_neg (by rw [hlen]; omega)]
  | cons s ss ih =>
    intro ws k hwf
    have hd := hwf s (List.mem_cons_self _ _)
    unfold fill_skills_t
    by_cases hbig : k > 11
    · rw [if_pos hbig]
      congr 1
      funext p
      obtain ⟨c, r⟩ := p
      simp only [List.length_cons]
      rw [if_neg (show ¬ (k ≤ r ∧ r ≤ 11 ∧ r - k < ss.length + 1 ∧
          (c = 1 ∨ c = 2 ∨ c = 4 ∨ c = 6)) by omega)]
    · rw [if_neg hbig]
      rw [skill_cells_t_eq tn s hd]
      simp only
      rw [ih _ (k + 1) (fun x hx => hwf x (List.mem_cons_of_mem s hx))]
      congr 1
      funext p
      obtain ⟨c, r⟩ := p
      simp only [Sheet.set, List.length_cons]
      by_cases hc : c = 1 ∨ c = 2 ∨ c = 4 ∨ c = 6
      · by_cases hr1 : k ≤ r
        · by_cases hr2 : r = k
          · subst hr2
            rw [if_neg (show ¬ (r + 1 ≤ r ∧ r ≤ 11 ∧ r - (r + 1) < ss.length ∧
                (c = 1 ∨ c = 2 ∨ c = 4 ∨ c = 6)) by omega)]
            rw [if_pos (show r ≤ r ∧ r ≤ 11 ∧ r - r < ss.length + 1 ∧
                (c = 1 ∨ c = 2 ∨ c = 4 ∨ c = 6) from ⟨le_refl r, by omega, by omega, hc⟩)]
            rw [Nat.sub_self, List.getD_cons_zero]
            simp only [t_skill_cell_col]
            rcases hc with rfl | rfl | rfl | rfl
            · rw [if_neg (show ¬ (((1 : Nat), r) = (6, r)) from by simp)]
              rw [if_neg (show ¬ (((1 : Nat), r) = (4, r)) from by simp)]
              rw [if_neg (show ¬ (((1 : Nat), r) = (2, r)) from by simp)]
              rw [if_pos (show ((1 : Nat), r) = (1, r) from rfl)]
              rw [if_pos (show (1 : Nat) = 1 from rfl)]
            · rw [if_neg (show ¬ (((2 : Nat), r) = (6, r)) from by simp)]
              rw [if_neg (show ¬ (((2 : Nat), r) = (4, r)) from by simp)]
              rw [if_pos (show ((2 : Nat), r) = (2, r) from rfl)]
              rw [if_neg (show ¬ ((2 : Nat) = 1) by omega)]
              rw [if_pos (show (2 : Nat) = 2 from rfl)]
            · rw [if_neg (show ¬ (((4 : Nat), r) = (6, r)) from by simp)]
              rw [if_pos (show ((4 : Nat), r) = (4, r) from rfl)]
              rw [if_neg (show ¬ ((4 : Nat) = 1) by omega)]
              rw [if_neg (show ¬ ((4 : Nat) = 2) by omega)]
              rw [if_pos (show (4 : Nat) = 4 from rfl)]
            · rw [if_pos (show ((6 : Nat), r) = (6, r) from rfl)]
              rw [if_neg (show ¬ ((6 : Nat) = 1) by omega)]
              rw [if_neg (show ¬ ((6 : Nat) = 2) by omega)]
              rw [if_neg (show ¬ ((6 : Nat) = 4) by omega)]
          · have hr3 : k + 1 ≤ r := by omega
            by_cases hin : r ≤ 11 ∧ r - (k + 1) < ss.length
            · rw [if_pos (show k + 1 ≤ r ∧ r ≤ 11 ∧ r - (k + 1) < ss.length ∧
                  (c = 1 ∨ c = 2 ∨ c = 4 ∨ c = 6) from ⟨hr3, hin.1, hin.2, hc⟩)]
              rw [if_pos (show k ≤ r ∧ r ≤ 11 ∧ r - k < ss.length + 1 ∧
                  (c = 1 ∨ c = 2 ∨ c = 4 ∨ c = 6) from ⟨hr1, hin.1, by omega, hc⟩)]
              have hidx : r - k = (r - (k + 1)) + 1 := by omega
              rw [hidx, List.getD_cons_succ]
            · rw [if_neg (show ¬ (k + 1 ≤ r ∧ r ≤ 11 ∧ r - (k + 1) < ss.length ∧
                  (c = 1 ∨ c = 2 ∨ c = 4 ∨ c = 6)) from fun h2 => hin ⟨h2.2.1, h2.2.2.1⟩)]
              rw [if_neg (show ¬ (k ≤ r ∧ r ≤ 11 ∧ r - k < ss.length + 1 ∧
                  (c = 1 ∨ c = 2 ∨ c = 4 ∨ c = 6)) by omega)]
              rw [if_neg (show ¬ ((c, r) = (6, k)) from fun h2 => hr2 (congrArg Prod.snd h2))]
              rw [if_neg (show ¬ ((c, r) = (4, k)) from fun h2 => hr2 (congrArg Prod.snd h2))]
              rw [if_neg (show ¬ ((c, r) = (2, k)) from fun h2 => hr2 (congrArg Prod.snd h2))]
              rw [if_neg (show ¬ ((c, r) = (1, k)) from fun h2 => hr2 (congrArg Prod.snd h2))]
        · rw [if_neg (show ¬ (k + 1 ≤ r ∧ r ≤ 11 ∧ r - (k + 1) < ss.length ∧
              (c = 1 ∨ c = 2 ∨ c = 4 ∨ c = 6)) by omega)]
          rw [if_neg (show ¬ (k ≤ r ∧ r ≤ 11 ∧ r - k < ss.length + 1 ∧
              (c = 1 ∨ c = 2 ∨ c = 4 ∨ c = 6)) by omega)]
          rw [if_neg (show ¬ ((c, r) = (6, k)) from
              fun h2 => hr1 (le_of_eq (congrArg Prod.snd h2).symm))]
          rw [if_neg (show ¬ ((c, r) = (4, k)) from
              fun h2 => hr1 (le_of_eq (congrArg Prod.snd h2).symm))]
          rw [if_neg (show ¬ ((c, r) = (2, k)) from
              fun h2 => hr1 (le_of_eq (congrArg Prod.snd h2).symm))]
          rw [if_neg (show ¬ ((c, r) = (1, k)) from
              fun h2 => hr1 (le_of_eq (congrArg Prod.snd h2).symm))]
      · rw [if_neg (show ¬ (k + 1 ≤ r ∧ r ≤ 11 ∧ r - (k + 1) < ss.length ∧
            (c = 1 ∨ c = 2 ∨ c = 4 ∨ c = 6)) from fun h2 => hc h2.2.2.2)]
        rw [if_neg (show ¬ (k ≤ r ∧ r ≤ 11 ∧ r - k < ss.length + 1 ∧
            (c = 1 ∨ c = 2 ∨ c = 4 ∨ c = 6)) from fun h2 => hc h2.2.2.2)]
        rw [if_neg (show ¬ ((c, r) = (6, k)) from
            fun h2 => hc (Or.inr (Or.inr (Or.inr (congrArg Prod.fst h2)))))]
        rw [if_neg (show ¬ ((c, r) = (4, k)) from
            fun h2 => hc (Or.inr (Or.inr (Or.inl (congrArg Prod.fst h2)))))]
        rw [if_neg (show ¬ ((c, r) = (2, k)) from
            fun h2 => hc (Or.inr (Or.inl (congrArg Prod.fst h2))))]
        rw [if_neg (show ¬ ((c, r) = (1, k)) from
            fun h2 => hc (Or.inl (congrArg Prod.fst h2)))]

theorem write_task_sheet_eq (ws : Sheet) (org job : String) (tn : PyVal)
    (tasks : List PyVal) (hwf : ∀ t ∈ tasks, t.isDict = true) :
    write_task_sheet ws org job tn tasks
      = .ok (t_task_sheet_expected ws org job tn tasks) := by
  unfold write_task_sheet
  rw [fill_tasks_t_spec tasks _ 5 hwf]
  congr 1

theorem write_skill_sheet_eq (ws : Sheet) (org job : String) (tn : PyVal)
    (skills : List PyVal) (hwf : ∀ s ∈ skills, skill_row_wf_t s = true) :
    write_skill_sheet ws org job tn skills
      = .ok (t_skill_sheet_expected ws org job tn skills) := by
  unfold write_skill_sheet
  rw [fill_skills_t_spec tn skills _ 5 hwf]
  congr 1

/-- C2 (corrected): the cell windows are fixed-size in both modes — excess
records beyond the window are dropped and no cell outside the written region
is touched — but only the Non Track builder blanks shortfall rows.  The Track
writers stop as soon as the records run out, leaving shortfall window rows
with the template's prior content (see `claim_C2_counterexample`).  Each
writer's output sheet is characterized cell by cell: Non Track fills Task
rows 5-14 (columns A, C) from the first ten tasks and blanks the rest, and
Skill rows 5-11 (columns A, B, D, F) from at most seven skills and blanks the
rest; Track fills the same windows only up to the number of records, and
every shortfall cell keeps the template value. -/
theorem claim_C2 :
    (∀ (ws_task0 ws_skill0 : Sheet) (org role : String) (data : PyVal),
      data_wf_nt data = true →
      build_workbook_nontrack ws_task0 ws_skill0 org role data
        = .ok (nt_task_sheet_expected ws_task0 org role (nt_tasks_of data),
               nt_skill_sheet_expected ws_skill0 org role
                 (build_task_map_p (nt_tasks_of data) []) (nt_skills_of data)))
    ∧ (∀ (ws : Sheet) (org job : String) (tn : PyVal) (tasks : List PyVal),
        (∀ t ∈ tasks, t.isDict = true) →
        write_task_sheet ws org job tn tasks
          = .ok (t_task_sheet_expected ws org job tn tasks))
    ∧ (∀ (ws : Sheet) (org job : String) (tn : PyVal) (skills : List PyVal),
        (∀ s ∈ skills, skill_row_wf_t s = true) →
        write_skill_sheet ws org job tn skills
          = .ok (t_skill_sheet_expected ws org job tn skills))
    ∧ (∀ (ws : Sheet) (org job : String) (tn : PyVal) (tasks : List PyVal) (c r : Nat),
        (c = 1 ∨ c = 3) → 5 + tasks.length ≤ r →
        t_task_sheet_expected ws org job tn tasks (c, r) = ws (c, r)) := by
  refine ⟨build_workbook_nontrack_eq, write_task_sheet_eq, write_skill_sheet_eq, ?_⟩
  intro ws org job tn tasks c r hc hr
  simp only [t_task_sheet_expected, Prod.mk.injEq]
  rw [if_neg (by omega), if_neg (by omega), if_neg (by omega), if_neg (by omega)]

theorem claim_C2_witness :
    (data_wf_nt (pyD []) = true
      ∧ build_workbook_nontrack (fun _ => .str "A") (fun _ => .str "B") "o" "r" (pyD [])
          = .ok (nt_task_sheet_expected (fun _ => .str "A") "o" "r" (nt_tasks_of (pyD [])),
                 nt_skill_sheet_expected (fun _ => .str "B") "o" "r"
                   (build_task_map_p (nt_tasks_of (pyD [])) []) (nt_skills_of (pyD []))))
    ∧ ((∀ t ∈ ([pyD [("task_name", .str "x")]] : List PyVal), t.isDict = true)
      ∧ write_task_sheet (fun _ => .str "OLD") "o" "j" (.str "T")
          [pyD [("task_name", .str "x")]]
        = .ok (t_task_sheet_expected (fun _ => .str "OLD") "o" "j" (.str "T")
            [pyD [("task_name", .str "x")]]))
    ∧ t_task_sheet_expected (fun _ => .str "OLD") "o" "j" (.str "T")
        [pyD [("task_name", .str "x")]] (1, 8) = .str "OLD" := by
  have hwf : ∀ t ∈ ([pyD [("task_name", .str "x")]] : List PyVal), t.isDict = true := by
    intro t ht
    rw [List.mem_singleton.mp ht]
    rfl
  refine ⟨⟨rfl, claim_C2.1 _ _ "o" "r" (pyD []) rfl⟩,
    ⟨hwf, claim_C2.2.1 _ "o" "j" (.str "T") _ hwf⟩, ?_⟩
  exact claim_C2.2.2.2 (fun _ => .str "OLD") "o" "j" (.str "T")
    [pyD [("task_name", .str "x")]] 1 8 (Or.inl rfl) (by decide)
